import Mathlib

/-!
# Verification of the nostr-deploy-server resolution-and-caching engine

Shallow embedding of the core of `nostr-deploy-server` (TypeScript) together
with proofs about the embedded functions.

Source files modelled here:
* `src/helpers/nostr.ts` — `NostrHelper.getRelayList`, `getBlossomServers`,
  `getStaticFileMapping`, `queryRelays` (connection pooling variant).
* `src/utils/cache.ts` — `CacheService` (Keyv-backed caches, sliding
  expiration, negative cache) and `AdvancedCacheManager`
  serialization helpers.
* the cache-invalidation service — `handleStaticFileEvent`,
  `handleRelayListEvent`, `handleBlossomServerEvent`.
* the Blossom helper — `fetchFile`, `fixMimeType`,
  `getContentTypeFromPath`, `isMimeTypeCorrectForExtension`.
* the Express front door — path normalization, ETag and conditional
  request handling; `SimpleSSRHelper.shouldRenderSSR`.

Network I/O (relay queries, HTTP fetches) and external libraries
(`mime-types` lookup, regex-based content sniffing) are modelled as oracle
parameters; everything else is translated from the source.
-/

/-! ## JavaScript string primitives

Structurally recursive models of the JavaScript string operations the
source uses (`endsWith`, `includes` of a single character, `startsWith`,
`split`, `toLowerCase`), defined over the character list of the
string. -/

/-- JavaScript `s.endsWith(suffix)`. -/
def strEndsWith (s suffix : String) : Bool :=
  List.isSuffixOf suffix.toList s.toList

/-- JavaScript `s.includes(c)` for a single character. -/
def strContainsChar (s : String) (c : Char) : Bool :=
  s.toList.contains c

/-- JavaScript `s.startsWith(prefix)`. -/
def strStartsWith (s pre : String) : Bool :=
  List.isPrefixOf pre.toList s.toList

/-- JavaScript `s.toLowerCase()` (ASCII, which is all the source needs). -/
def strToLower (s : String) : String :=
  String.mk (s.toList.map Char.toLower)

/-- JavaScript `s.split(sep)` for a one-character separator, on character
lists: `''.split(c) = ['']`, separators delimit possibly empty
segments. -/
def splitOnChar (sep : Char) : List Char → List (List Char)
  | [] => [[]]
  | c :: rest =>
    let r := splitOnChar sep rest
    if c = sep then [] :: r
    else
      match r with
      | [] => [[c]]
      | seg :: segs => (c :: seg) :: segs

/-! ## Nostr events and parsed path mappings (src/types.ts) -/

/-- A Nostr event as consumed by the server.  `id`, `content` and `sig` are
not inspected by any modelled code path and are omitted. -/
structure NostrEvent where
  pubkey : String
  created_at : Int
  kind : Nat
  tags : List (List String)
deriving DecidableEq, Repr

/-- `ParsedEvent` from src/types.ts: the value cached in the `paths`
namespace. -/
structure ParsedEvent where
  pubkey : String
  path : String
  sha256 : String
  created_at : Int
deriving DecidableEq, Repr

/-- JavaScript `tag[i]` with `undefined` collapsed to the falsy `""`:
both a missing index and an empty string are falsy in the source's
`tag[0] === 'x' && tag[1]` style checks. -/
def tagGet (tag : List String) (i : Nat) : String :=
  (tag[i]?).getD ""

/-- First tag named `name` with a truthy value, returning that value.
Mirrors the `for (const tag of event.tags) { if (tag[0] === name && tag[1])
{ v = tag[1]; break; } }` loops in `getStaticFileMapping` and
`handleStaticFileEvent`. -/
def findTagValue (tags : List (List String)) (name : String) : Option String :=
  tags.findSome? fun tag =>
    if tagGet tag 0 = name ∧ tagGet tag 1 ≠ "" then some (tagGet tag 1) else none

/-- Relay-tag parsing from `getRelayList` / `handleRelayListEvent`:
keep `["r", url, marker?]` entries whose marker is absent (or empty,
which is falsy) or `"read"`; preserve order. -/
def parseRelayTags (tags : List (List String)) : List String :=
  tags.filterMap fun tag =>
    if tagGet tag 0 = "r" ∧ tagGet tag 1 ≠ "" ∧
        (tagGet tag 2 = "" ∨ tagGet tag 2 = "read")
    then some (tagGet tag 1) else none

/-- Server-tag parsing from `getBlossomServers` / `handleBlossomServerEvent`:
keep `["server", url]` entries, preserving order. -/
def parseServerTags (tags : List (List String)) : List String :=
  tags.filterMap fun tag =>
    if tagGet tag 0 = "server" ∧ tagGet tag 1 ≠ ""
    then some (tagGet tag 1) else none

/-! ## The cache contents seen by the resolver layer

`CacheService` (src/utils/cache.ts) exposes namespaced caches.  At the
resolver level we track the four namespaces the resolver and the
invalidation subscriber read and write; the entry-level TTL behaviour is
modelled separately below (`KeyvCache`).  Stores are association lists;
`set` is modelled as a shadowing cons (observationally equal to
replacement through `List.lookup`), `delete` as a filter. -/

structure CacheState where
  /-- namespace `paths`: key `pubkey ++ path` ↦ `ParsedEvent`. -/
  pathBlobs : List (String × ParsedEvent)
  /-- namespace `negative`: the set of keys marked "absent". -/
  negative : List String
  /-- namespace `relays`: key `pubkey` ↦ relay URL list. -/
  relays : List (String × List String)
  /-- namespace `servers`: key `pubkey` ↦ Blossom server URL list. -/
  servers : List (String × List String)
deriving DecidableEq, Repr

/-- `CacheService.setBlobForPath(pubkey, path, event)`:
`caches.pathBlobs.set(pubkey + path, event)`. -/
def CacheState.setBlobForPath (c : CacheState) (pubkey path : String)
    (event : ParsedEvent) : CacheState :=
  { c with pathBlobs := (pubkey ++ path, event) :: c.pathBlobs }

/-- `CacheService.invalidateBlobForPath(pubkey, path)`:
`caches.pathBlobs.delete(pubkey + path)`. -/
def CacheState.invalidateBlobForPath (c : CacheState) (pubkey path : String) :
    CacheState :=
  { c with pathBlobs := c.pathBlobs.filter fun kv => kv.1 ≠ pubkey ++ path }

/-- `CacheService.setNegativeCache(key)`. -/
def CacheState.setNegativeCache (c : CacheState) (key : String) : CacheState :=
  { c with negative := key :: c.negative }

/-- `CacheService.setRelaysForPubkey(pubkey, relays)`. -/
def CacheState.setRelaysForPubkey (c : CacheState) (pubkey : String)
    (relays : List String) : CacheState :=
  { c with relays := (pubkey, relays) :: c.relays }

/-- `CacheService.setBlossomServersForPubkey(pubkey, servers)`. -/
def CacheState.setBlossomServersForPubkey (c : CacheState) (pubkey : String)
    (servers : List String) : CacheState :=
  { c with servers := (pubkey, servers) :: c.servers }

/-! ## Relay queries (src/helpers/nostr.ts, `queryRelays`) -/

/-- The subscription filter sent to relays. -/
structure RelayFilter where
  authors : List String
  kinds : List Nat
  dTag : Option String
  limit : Nat
deriving DecidableEq, Repr

/-- The relay network, as an oracle: given the relay set and the filter it
either yields the collected events or stands for an exception thrown
inside the calling `try` block.  (`queryRelays` itself always resolves;
the `Except.error` case models any rejection the surrounding `try` can
observe.) -/
def RelayDB : Type :=
  List String → RelayFilter → Except Unit (List NostrEvent)

/-- Server configuration fields consumed by the resolver
(src/utils/config.ts). -/
structure Config where
  defaultRelays : List String
  defaultBlossomServers : List String

/-- Resolver-level state: the cache plus an observation log of the relay
queries actually issued (relay set and filter) and of the resolution
calls entered (`attempts`, one path per `getStaticFileMapping`
activation). -/
structure RVState where
  cache : CacheState
  queries : List (List String × RelayFilter)
  attempts : List String
deriving DecidableEq, Repr

/-- `getActiveRelays` reorders the relay set to put the hard-coded
priority relays first (connections themselves always "succeed" in the
source, so every requested relay stays active). -/
def priorityRelays : List String :=
  ["wss://relay.primal.net", "wss://relay.damus.io", "wss://relay.nostr.band"]

/-- The reordering performed by `getActiveRelays`. -/
def sortActiveRelays (relays : List String) : List String :=
  relays.filter (fun relay => priorityRelays.contains relay) ++
    relays.filter (fun relay => !priorityRelays.contains relay)

/-- `queryRelays(relays, filter, timeout)`: with no active relays it
returns `[]` without subscribing; otherwise it subscribes on the active
relays (logged in `queries`) and returns whatever the network yields.
Timeouts only select which events arrive and are absorbed into the
oracle. -/
def queryRelays (db : RelayDB) (relays : List String) (f : RelayFilter)
    (st : RVState) : Except Unit (List NostrEvent) × RVState :=
  let activeRelays := sortActiveRelays relays
  if activeRelays.isEmpty then (Except.ok [], st)
  else (db activeRelays f, { st with queries := st.queries ++ [(activeRelays, f)] })

/-- The filter built by `getRelayList`. -/
def relayListFilter (pubkey : String) : RelayFilter :=
  { authors := [pubkey], kinds := [10002], dTag := none, limit := 1 }

/-- The filter built by `getBlossomServers`. -/
def serverListFilter (pubkey : String) : RelayFilter :=
  { authors := [pubkey], kinds := [10063], dTag := none, limit := 1 }

/-- The filter built by `getStaticFileMapping`. -/
def mappingFilter (pubkey path : String) : RelayFilter :=
  { authors := [pubkey], kinds := [34128], dTag := some path, limit := 1 }

/-- `NostrHelper.getRelayList(pubkey)` (NIP-65).  Cache-first; on a miss it
queries the configured default relays, parses `r` tags, substitutes the
defaults when nothing usable is found or an exception is caught, caches
and returns. -/
def getRelayList (cfg : Config) (db : RelayDB) (pubkey : String)
    (st : RVState) : List String × RVState :=
  match st.cache.relays.lookup pubkey with
  | some cached => (cached, st)
  | none =>
    let relays := cfg.defaultRelays
    let (res, st₁) := queryRelays db relays (relayListFilter pubkey) st
    match res with
    | Except.error _ =>
      (relays, { st₁ with cache := st₁.cache.setRelaysForPubkey pubkey relays })
    | Except.ok [] =>
      (relays, { st₁ with cache := st₁.cache.setRelaysForPubkey pubkey relays })
    | Except.ok (event :: _) =>
      let userRelays := parseRelayTags event.tags
      let finalRelays := if userRelays.length > 0 then userRelays else relays
      (finalRelays,
        { st₁ with cache := st₁.cache.setRelaysForPubkey pubkey finalRelays })

/-- `NostrHelper.getBlossomServers(pubkey)` (BUD-03).  Cache-first; on a
miss it queries the user's relay list for `server` tags, substituting the
configured default Blossom servers when nothing is found or an exception
is caught. -/
def getBlossomServers (cfg : Config) (db : RelayDB) (pubkey : String)
    (st : RVState) : List String × RVState :=
  match st.cache.servers.lookup pubkey with
  | some cached => (cached, st)
  | none =>
    let (userRelays, st₁) := getRelayList cfg db pubkey st
    let (res, st₂) := queryRelays db userRelays (serverListFilter pubkey) st₁
    match res with
    | Except.error _ =>
      (cfg.defaultBlossomServers,
        { st₂ with cache :=
            st₂.cache.setBlossomServersForPubkey pubkey cfg.defaultBlossomServers })
    | Except.ok [] =>
      (cfg.defaultBlossomServers,
        { st₂ with cache :=
            st₂.cache.setBlossomServersForPubkey pubkey cfg.defaultBlossomServers })
    | Except.ok (event :: _) =>
      let servers := parseServerTags event.tags
      let finalServers := if servers.length > 0 then servers
        else cfg.defaultBlossomServers
      (finalServers,
        { st₂ with cache :=
            st₂.cache.setBlossomServersForPubkey pubkey finalServers })

/-- `NostrHelper.getStaticFileMapping(pubkey, path)` (kind 34128), with an
explicit fuel for the `/404.html` tail-recursion.  Fuel `2` is provably
sufficient (`getStaticFileMappingFuel` only recurses when
`path ≠ "/404.html"`, always with `"/404.html"`); the fuel-0 branch is
unreachable from the public entry point.  Each activation logs its `path`
in `attempts`. -/
def getStaticFileMappingFuel (cfg : Config) (db : RelayDB) :
    Nat → String → String → RVState → Option String × RVState
  | 0, _, _, st => (none, st)
  | fuel + 1, pubkey, path, st₀ =>
    let st := { st₀ with attempts := st₀.attempts ++ [path] }
    match st.cache.pathBlobs.lookup (pubkey ++ path) with
    | some cached => (some cached.sha256, st)
    | none =>
      let negKey := "mapping:" ++ pubkey ++ ":" ++ path
      if st.cache.negative.contains negKey then (none, st)
      else
        let (userRelays, st₁) := getRelayList cfg db pubkey st
        let filter := mappingFilter pubkey path
        let extraDefaultRelays :=
          cfg.defaultRelays.filter fun relay => !userRelays.contains relay
        let allRelaysCombined := userRelays ++ extraDefaultRelays
        let (firstRes, st₂) := queryRelays db userRelays filter st₁
        let (res, st₃) :=
          match firstRes with
          | Except.ok [] =>
            if userRelays.length < allRelaysCombined.length then
              queryRelays db allRelaysCombined filter st₂
            else (firstRes, st₂)
          | _ => (firstRes, st₂)
        match res with
        | Except.error _ => (none, { st₃ with cache := st₃.cache.setNegativeCache negKey })
        | Except.ok [] =>
          if path ≠ "/404.html" then
            getStaticFileMappingFuel cfg db fuel pubkey "/404.html" st₃
          else (none, { st₃ with cache := st₃.cache.setNegativeCache negKey })
        | Except.ok (event :: _) =>
          match findTagValue event.tags "x" with
          | none => (none, { st₃ with cache := st₃.cache.setNegativeCache negKey })
          | some sha256 =>
            let parsedEvent : ParsedEvent :=
              { pubkey := event.pubkey, path := path, sha256 := sha256,
                created_at := event.created_at }
            (some sha256,
              { st₃ with cache := st₃.cache.setBlobForPath pubkey path parsedEvent })

/-- The public entry point: fuel 2 covers the single `/404.html`
fallback. -/
def getStaticFileMapping (cfg : Config) (db : RelayDB) (pubkey path : String)
    (st : RVState) : Option String × RVState :=
  getStaticFileMappingFuel cfg db 2 pubkey path st

/-! ## The invalidation subscriber's event handlers (cache-invalidation service) -/

/-- `CacheInvalidationService.handleStaticFileEvent(event)`:
no truthy `d` tag ⇒ skip; `d` but no truthy `x` tag ⇒ delete the path
mapping; both ⇒ upsert the `ParsedEvent` built from the event. -/
def handleStaticFileEvent (c : CacheState) (event : NostrEvent) : CacheState :=
  match findTagValue event.tags "d" with
  | none => c
  | some path =>
    match findTagValue event.tags "x" with
    | none => c.invalidateBlobForPath event.pubkey path
    | some sha256 =>
      c.setBlobForPath event.pubkey path
        { pubkey := event.pubkey, path := path, sha256 := sha256,
          created_at := event.created_at }

/-- `CacheInvalidationService.handleRelayListEvent(event)`: replace the
cached relay list with the parsed read-capable relays, falling back to
the configured defaults when no valid entry exists. -/
def handleRelayListEvent (cfg : Config) (c : CacheState) (event : NostrEvent) :
    CacheState :=
  let userRelays := parseRelayTags event.tags
  let finalRelays := if userRelays.length > 0 then userRelays else cfg.defaultRelays
  c.setRelaysForPubkey event.pubkey finalRelays

/-- `CacheInvalidationService.handleBlossomServerEvent(event)`: replace the
cached server list, falling back to the defaults when empty. -/
def handleBlossomServerEvent (cfg : Config) (c : CacheState) (event : NostrEvent) :
    CacheState :=
  let servers := parseServerTags event.tags
  let finalServers := if servers.length > 0 then servers else cfg.defaultBlossomServers
  c.setBlossomServersForPubkey event.pubkey finalServers

/-! ## Front-door path normalization (src/index.ts, `app.get('*')`) -/

/-- The path normalization performed before calling the resolver:
`path ends with '/'` ⇒ append `index.html`; else if the path contains no
`.` anywhere (`!normalizedPath.includes('.')`) ⇒ append `/index.html`;
else use as-is. -/
def normalizePath (requestPath : String) : String :=
  if strEndsWith requestPath "/" then requestPath ++ "index.html"
  else if !strContainsChar requestPath '.' then requestPath ++ "/index.html"
  else requestPath

/-- The last `/`-separated segment of a path. -/
def lastSegment (p : String) : String :=
  String.mk (((splitOnChar '/' p.toList).getLast?).getD [])

/-- Modelled from the spec: the spec's path-normalization rule, which
tests for a `.` in the *last segment* only ("`P` has no `.` in its last
segment ⇒ append `/index.html`").  Kept separate from `normalizePath`
(the source behaviour) for comparison. -/
def normalizePathSpec (requestPath : String) : String :=
  if strEndsWith requestPath "/" then requestPath ++ "index.html"
  else if !strContainsChar (lastSegment requestPath) '.' then requestPath ++ "/index.html"
  else requestPath

/-! ## Keyv-level cache model with TTLs (src/utils/cache.ts)

Each namespace is a Keyv instance: an entry stores a value together with
its absolute expiry time.  `get` at time `now` yields the value iff the
entry is live (`now < expiresAt`); Keyv's lazy deletion of expired
entries on `get` does not change any entry's lifetime and is not
modelled.  `set` is a shadowing cons (observationally a replacement
through `kvGet`). -/

structure KeyvEntry (α : Type) where
  value : α
  expiresAt : Nat
deriving DecidableEq, Repr

def KeyvCache (α : Type) : Type := List (String × KeyvEntry α)

/-- `cache.get(key)` at absolute time `now` (milliseconds). -/
def kvGet {α : Type} (cache : KeyvCache α) (key : String) (now : Nat) : Option α :=
  match cache.lookup key with
  | some entry => if now < entry.expiresAt then some entry.value else none
  | none => none

/-- `cache.set(key, value, ttlMs)` at absolute time `now`. -/
def kvSet {α : Type} (cache : KeyvCache α) (key : String) (value : α)
    (now ttlMs : Nat) : KeyvCache α :=
  (key, { value := value, expiresAt := now + ttlMs }) :: cache

/-- The configuration fields consumed by `CacheService`. -/
structure CacheConfig where
  slidingExpiration : Bool
  /-- `config.cacheTime` (seconds). -/
  cacheTime : Nat
  fileContentCacheTtlMs : Nat
  negativeCacheTtlMs : Nat

/-- `CacheService.getWithSlidingExpiration(cache, key, refreshTtl,
customTtlSeconds?)`: read the value; when the value is truthy and
`refreshTtl` holds, `set` it again with a full TTL
(`customTtlSeconds * 1000` when a truthy custom TTL is given, else
`config.cacheTime * 1000`); return `value || null`. -/
def getWithSlidingExpiration {α : Type} (truthy : α → Bool) (cfg : CacheConfig)
    (cache : KeyvCache α) (key : String) (refreshTtl : Bool)
    (customTtlSeconds : Option Nat) (now : Nat) : Option α × KeyvCache α :=
  let ttlMs :=
    match customTtlSeconds with
    | some t => if t ≠ 0 then t * 1000 else cfg.cacheTime * 1000
    | none => cfg.cacheTime * 1000
  match kvGet cache key now with
  | some value =>
    if truthy value && refreshTtl then (some value, kvSet cache key value now ttlMs)
    else (if truthy value then some value else none, cache)
  | none => (none, cache)

/-- All `CacheService` namespaces (`AdvancedCacheManager.getCaches`). -/
structure Caches where
  pubkeyDomains : KeyvCache String
  pubkeyServers : KeyvCache (List String)
  pubkeyRelays : KeyvCache (List String)
  pathBlobs : KeyvCache ParsedEvent
  blobURLs : KeyvCache (List String)
  fileContent : KeyvCache (List Nat)
  negativeCache : KeyvCache Bool

/-- JavaScript truthiness of a string: nonempty. -/
def strTruthy (s : String) : Bool := s != ""

/-- JavaScript truthiness of an array or object value: always truthy
(`[]` and `{}` are truthy). -/
def objTruthy {α : Type} (_ : α) : Bool := true

/-- `CacheService.getPubkeyForDomain(domain)` (namespace `domains`):
sliding-expiration read controlled by `config.slidingExpiration`. -/
def getPubkeyForDomain (cfg : CacheConfig) (cs : Caches) (domain : String)
    (now : Nat) : Option String × Caches :=
  let (res, cache) := getWithSlidingExpiration strTruthy cfg cs.pubkeyDomains
    domain cfg.slidingExpiration none now
  (res, { cs with pubkeyDomains := cache })

/-- `CacheService.getBlossomServersForPubkey(pubkey)` (namespace `servers`). -/
def getBlossomServersForPubkey (cfg : CacheConfig) (cs : Caches)
    (pubkey : String) (now : Nat) : Option (List String) × Caches :=
  let (res, cache) := getWithSlidingExpiration objTruthy cfg cs.pubkeyServers
    pubkey cfg.slidingExpiration none now
  (res, { cs with pubkeyServers := cache })

/-- `CacheService.getRelaysForPubkey(pubkey)` (namespace `relays`). -/
def getRelaysForPubkey (cfg : CacheConfig) (cs : Caches) (pubkey : String)
    (now : Nat) : Option (List String) × Caches :=
  let (res, cache) := getWithSlidingExpiration objTruthy cfg cs.pubkeyRelays
    pubkey cfg.slidingExpiration none now
  (res, { cs with pubkeyRelays := cache })

/-- `CacheService.getBlobForPath(pubkey, path)` (namespace `paths`,
key `pubkey + path`). -/
def getBlobForPath (cfg : CacheConfig) (cs : Caches) (pubkey path : String)
    (now : Nat) : Option ParsedEvent × Caches :=
  let (res, cache) := getWithSlidingExpiration objTruthy cfg cs.pathBlobs
    (pubkey ++ path) cfg.slidingExpiration none now
  (res, { cs with pathBlobs := cache })

/-- `CacheService.getBlobURLs(sha256)` (namespace `blobs`). -/
def getBlobURLs (cfg : CacheConfig) (cs : Caches) (sha256 : String)
    (now : Nat) : Option (List String) × Caches :=
  let (res, cache) := getWithSlidingExpiration objTruthy cfg cs.blobURLs
    sha256 cfg.slidingExpiration none now
  (res, { cs with blobURLs := cache })

/-- `CacheService.getFileContent(sha256)` (namespace `content`): same
sliding-expiration read, but with the content cache's own TTL
(`config.fileContentCacheTtlMs / 1000` seconds) as the custom TTL.  The
typed model always stores genuine byte arrays, so the source's
"not a Uint8Array" recovery branch is unreachable here. -/
def getFileContent (cfg : CacheConfig) (cs : Caches) (sha256 : String)
    (now : Nat) : Option (List Nat) × Caches :=
  let customTtlSeconds := cfg.fileContentCacheTtlMs / 1000
  let (res, cache) := getWithSlidingExpiration objTruthy cfg cs.fileContent
    sha256 cfg.slidingExpiration (some customTtlSeconds) now
  (res, { cs with fileContent := cache })

/-- `CacheService.isNegativeCached(key)` (namespace `negative`):
`(await caches.negativeCache.get(key)) || false` — a plain read, never a
re-put. -/
def isNegativeCached (cs : Caches) (key : String) (now : Nat) : Bool × Caches :=
  ((kvGet cs.negativeCache key now).getD false, cs)

/-! ## Blossom blob fetcher (src/helpers/blossom.ts) -/

/-- A fetched file as returned to the front door. -/
structure FileResponse where
  content : List Nat
  contentType : String
  contentLength : Nat
  sha256 : String
deriving DecidableEq, Repr

/-- External behaviour the Blossom helper depends on:
`mimeLookup` is the `mime-types` library's `lookup` (`false` ↦ `none`);
`validateContent` is `validateContentMatchesExtension`'s regex/signature
check; `fetchFromServer server sha256 path` is the per-server HTTP fetch,
`none` standing for any thrown error (404/413/429/timeout/other). -/
structure BlossomOracles where
  mimeLookup : String → Option String
  validateContent : List Nat → String → Bool
  fetchFromServer : String → String → String → Option FileResponse

/-- `path.toLowerCase().split('.').pop()` (JS `pop()` of a nonempty split
is its last element; `split` of a dot-free string returns the whole
string). -/
def extOf (path : String) : String :=
  String.mk (((splitOnChar '.' (strToLower path).toList).getLast?).getD [])

/-- `BlossomHelper.getContentTypeFromPath(path)`: empty path ⇒
`application/octet-stream`; else the `mime-types` lookup when truthy;
else the hard-coded extension switch. -/
def getContentTypeFromPath (mimeLookup : String → Option String)
    (path : String) : String :=
  if path = "" then "application/octet-stream"
  else
    match mimeLookup path with
    | some contentType => contentType
    | none =>
      let ext := extOf path
      if ext = "html" ∨ ext = "htm" then "text/html"
      else if ext = "css" then "text/css"
      else if ext = "js" then "application/javascript"
      else if ext = "json" then "application/json"
      else if ext = "png" then "image/png"
      else if ext = "jpg" ∨ ext = "jpeg" then "image/jpeg"
      else if ext = "gif" then "image/gif"
      else if ext = "svg" then "image/svg+xml"
      else if ext = "ico" then "image/x-icon"
      else if ext = "woff" then "font/woff"
      else if ext = "woff2" then "font/woff2"
      else if ext = "ttf" then "font/ttf"
      else if ext = "eot" then "application/vnd.ms-fontobject"
      else if ext = "pdf" then "application/pdf"
      else if ext = "txt" then "text/plain"
      else if ext = "md" then "text/markdown"
      else if ext = "xml" then "application/xml"
      else if ext = "zip" then "application/zip"
      else if ext = "tar" then "application/x-tar"
      else if ext = "gz" then "application/gzip"
      else "application/octet-stream"

/-- The `criticalMimeTypes` record of `fixMimeType`. -/
def criticalMimeTypes : List (String × List String) :=
  [("text/html", ["html", "htm"]), ("text/css", ["css"]),
   ("application/javascript", ["js"]), ("text/javascript", ["js"]),
   ("application/json", ["json"]), ("text/xml", ["xml"]),
   ("application/xml", ["xml"]), ("image/png", ["png"]),
   ("image/jpeg", ["jpg", "jpeg"]), ("image/gif", ["gif"]),
   ("image/svg+xml", ["svg"]), ("image/x-icon", ["ico"]),
   ("font/woff", ["woff"]), ("font/woff2", ["woff2"]),
   ("font/ttf", ["ttf"]), ("application/vnd.ms-fontobject", ["eot"])]

/-- The `mimeTypeMap` of `isMimeTypeCorrectForExtension`. -/
def mimeTypeMap : List (String × List String) :=
  [("html", ["text/html"]), ("htm", ["text/html"]), ("css", ["text/css"]),
   ("js", ["application/javascript", "text/javascript"]),
   ("json", ["application/json"]), ("xml", ["text/xml", "application/xml"]),
   ("png", ["image/png"]), ("jpg", ["image/jpeg"]), ("jpeg", ["image/jpeg"]),
   ("gif", ["image/gif"]), ("svg", ["image/svg+xml"]),
   ("ico", ["image/x-icon", "image/vnd.microsoft.icon"]),
   ("woff", ["font/woff", "application/font-woff"]),
   ("woff2", ["font/woff2", "application/font-woff2"]),
   ("ttf", ["font/ttf", "application/font-ttf"]),
   ("eot", ["application/vnd.ms-fontobject"])]

/-- `BlossomHelper.isMimeTypeCorrectForExtension(mimeType, extension)`. -/
def isMimeTypeCorrectForExtension (mimeType extension : String) : Bool :=
  match mimeTypeMap.lookup (strToLower extension) with
  | some validMimeTypes => validMimeTypes.contains (strToLower mimeType)
  | none => true

/-- The `incorrectMimeTypes` list of `fixMimeType`. -/
def incorrectMimeTypes : List String :=
  ["application/json", "text/plain", "application/octet-stream",
   "binary/octet-stream", "text/html"]

/-- `BlossomHelper.fixMimeType(serverContentType, path, content)`. -/
def fixMimeType (oracles : BlossomOracles) (serverContentType path : String)
    (content : List Nat) : String :=
  if path = "" then serverContentType
  else
    let ext := extOf path
    if ext = "" then serverContentType
    else
      let expectedMimeType := getContentTypeFromPath oracles.mimeLookup path
      let isCriticalFile := criticalMimeTypes.any fun kv => kv.2.contains ext
      if !isCriticalFile then serverContentType
      else if incorrectMimeTypes.contains serverContentType ||
          !isMimeTypeCorrectForExtension serverContentType ext then
        if oracles.validateContent content ext then expectedMimeType
        else serverContentType
      else serverContentType

/-- The per-server failover loop of `fetchFile`, accumulating the servers
contacted.  A `none` from the oracle is a thrown per-server error:
logged and skipped (`continue`). -/
def fetchFileLoop (oracles : BlossomOracles) (sha256 path : String)
    (cache : List (String × List Nat)) :
    List String → List String → Option FileResponse × List (String × List Nat) × List String
  | [], contacted => (none, cache, contacted)
  | server :: rest, contacted =>
    match oracles.fetchFromServer server sha256 path with
    | some result =>
      (some result, ("file:" ++ sha256, result.content) :: cache,
        contacted ++ [server])
    | none => fetchFileLoop oracles sha256 path cache rest (contacted ++ [server])

/-- `BlossomHelper.fetchFile(sha256, servers, path?)`: content-cache
first (key `file:` + sha256), deriving the content type from the path
hint and repairing it; otherwise iterate the servers in order, caching
and returning the first success; all exhausted ⇒ `null`.  The third
result component is the list of servers contacted. -/
def fetchFile (oracles : BlossomOracles) (cache : List (String × List Nat))
    (sha256 : String) (servers : List String) (path : String) :
    Option FileResponse × List (String × List Nat) × List String :=
  match cache.lookup ("file:" ++ sha256) with
  | some cached =>
    let contentType₀ := getContentTypeFromPath oracles.mimeLookup path
    let contentType := fixMimeType oracles contentType₀ path cached
    (some { content := cached, contentType := contentType,
            contentLength := cached.length, sha256 := sha256 }, cache, [])
  | none => fetchFileLoop oracles sha256 path cache servers []

/-! ## Cache value serialization (src/utils/cache.ts, `AdvancedCacheManager`)

JavaScript values as stored in the caches.  `bytes` is a `Uint8Array`;
`obj` is a plain object as an ordered field list (runtime JS objects have
unique keys; property access is modelled by first-match lookup).  The
textual JSON layer is bijective on `bytes`-free values and is elided:
`serialize`/`deserialize` special-case the top level exactly as
`serializeWithUint8Array`/`deserializeWithUint8Array` do, so the
composition is the one modelled here. -/

inductive JSValue : Type where
  | str : String → JSValue
  | num : Int → JSValue
  | bool : Bool → JSValue
  | jsNull : JSValue
  | arr : List JSValue → JSValue
  | obj : List (String × JSValue) → JSValue
  | bytes : List Nat → JSValue
deriving Repr

mutual

/-- `serializeWithUint8Array`: tag byte arrays as
`{__type:'Uint8Array', data:[…]}`, recurse into arrays and objects,
leave primitives alone. -/
def serializeWithUint8Array : JSValue → JSValue
  | JSValue.bytes bs =>
    JSValue.obj [("__type", JSValue.str "Uint8Array"),
      ("data", JSValue.arr (bs.map fun b => JSValue.num (Int.ofNat b)))]
  | JSValue.arr items => JSValue.arr (serializeList items)
  | JSValue.obj fields => JSValue.obj (serializeFields fields)
  | JSValue.str s => JSValue.str s
  | JSValue.num n => JSValue.num n
  | JSValue.bool b => JSValue.bool b
  | JSValue.jsNull => JSValue.jsNull

/-- The `map` over array items inside `serializeWithUint8Array`. -/
def serializeList : List JSValue → List JSValue
  | [] => []
  | v :: rest => serializeWithUint8Array v :: serializeList rest

/-- The `Object.entries` map inside `serializeWithUint8Array`. -/
def serializeFields : List (String × JSValue) → List (String × JSValue)
  | [] => []
  | (k, v) :: rest => (k, serializeWithUint8Array v) :: serializeFields rest

end

/-- `new Uint8Array(data)` element coercion (`ToUint8`) for the values
that can appear in a parsed `data` array; non-numbers coerce to 0. -/
def toByte : JSValue → Nat
  | JSValue.num n => (n % 256).toNat
  | _ => 0

mutual

/-- `deserializeWithUint8Array`: objects carrying the
`{__type:'Uint8Array', data:[…]}` tag become byte arrays; other arrays
and objects recurse; primitives stay.  (Runtime JS objects have unique
keys, so property access is first-match lookup.) -/
def deserializeWithUint8Array : JSValue → JSValue
  | JSValue.obj fields =>
    match fields.lookup "__type", fields.lookup "data" with
    | some (JSValue.str "Uint8Array"), some (JSValue.arr items) =>
      JSValue.bytes (items.map toByte)
    | _, _ => JSValue.obj (deserializeFields fields)
  | JSValue.arr items => JSValue.arr (deserializeList items)
  | JSValue.str s => JSValue.str s
  | JSValue.num n => JSValue.num n
  | JSValue.bool b => JSValue.bool b
  | JSValue.jsNull => JSValue.jsNull
  | JSValue.bytes bs => JSValue.bytes bs

/-- The `map` over array items inside `deserializeWithUint8Array`. -/
def deserializeList : List JSValue → List JSValue
  | [] => []
  | v :: rest => deserializeWithUint8Array v :: deserializeList rest

/-- The `Object.entries` map inside `deserializeWithUint8Array`. -/
def deserializeFields : List (String × JSValue) → List (String × JSValue)
  | [] => []
  | (k, v) :: rest => (k, deserializeWithUint8Array v) :: deserializeFields rest

end

/-- Is this optional field value the string `"Uint8Array"`? -/
def isUint8Tag : Option JSValue → Bool
  | some (JSValue.str s) => s = "Uint8Array"
  | _ => false

/-- Is this optional field value an array? -/
def isArrOpt : Option JSValue → Bool
  | some (JSValue.arr _) => true
  | _ => false

/-- Does a plain object spell the reserved
`{__type:'Uint8Array', data:[…]}` tag the deserializer recognizes? -/
def isReservedTag (fields : List (String × JSValue)) : Bool :=
  isUint8Tag (fields.lookup "__type") && isArrOpt (fields.lookup "data")

mutual

/-- Does a value contain a byte array anywhere (the claimed domain of
the round-trip property)? -/
def containsBytes : JSValue → Bool
  | JSValue.bytes _ => true
  | JSValue.arr items => containsBytesList items
  | JSValue.obj fields => containsBytesFields fields
  | _ => false

def containsBytesList : List JSValue → Bool
  | [] => false
  | v :: rest => containsBytes v || containsBytesList rest

def containsBytesFields : List (String × JSValue) → Bool
  | [] => false
  | (_, v) :: rest => containsBytes v || containsBytesFields rest

end

mutual

/-- Well-formedness for the round-trip theorem: every byte is an actual
byte (`< 256`, an invariant of `Uint8Array`) and no plain object spells
the reserved tag. -/
def wellFormedJS : JSValue → Bool
  | JSValue.bytes bs => bs.all fun b => b < 256
  | JSValue.arr items => wellFormedList items
  | JSValue.obj fields => !isReservedTag fields && wellFormedFields fields
  | _ => true

def wellFormedList : List JSValue → Bool
  | [] => true
  | v :: rest => wellFormedJS v && wellFormedList rest

def wellFormedFields : List (String × JSValue) → Bool
  | [] => true
  | (_, v) :: rest => wellFormedJS v && wellFormedFields rest

end

/-- The C8 counterexample value: an object that *does* contain a byte
array (at key `a`) but whose sibling `b` is a plain object spelling the
reserved tag. -/
def vBad : JSValue :=
  JSValue.obj [("a", JSValue.bytes [1]),
    ("b", JSValue.obj [("__type", JSValue.str "Uint8Array"),
      ("data", JSValue.arr [JSValue.num 2])])]

/-- A well-formed value containing a byte array. -/
def vGood : JSValue :=
  JSValue.obj [("a", JSValue.bytes [1, 255]),
    ("b", JSValue.arr [JSValue.str "x", JSValue.bytes [0]])]

/-! ## Front-door response fragment (src/index.ts) and SSR gate -/

/-- `s.includes(pattern)` on JavaScript strings. -/
def listContainsSub (pat : List Char) : List Char → Bool
  | [] => pat.isEmpty
  | c :: rest => pat.isPrefixOf (c :: rest) || listContainsSub pat rest

/-- JavaScript `String.prototype.includes`. -/
def strIncludes (s pat : String) : Bool :=
  listContainsSub pat.toList s.toList

/-- `SimpleSSRHelper.shouldRenderSSR(contentType, path, userAgent?)`. -/
def shouldRenderSSR (ssrEnabled : Bool) (contentType path : String)
    (userAgent : Option String) : Bool :=
  if !ssrEnabled then false
  else if (match userAgent with
           | some ua => strIncludes ua "NostrSSRBot"
           | none => false) then false
  else if !strIncludes contentType "text/html" then false
  else if strStartsWith path "/api/" || strStartsWith path "/admin/" then false
  else true

/-- The ETag the front door computes:
`` `"${sha256}${shouldSSR ? '-ssr' : ''}"` ``. -/
def computeETag (sha256 : String) (shouldSSR : Bool) : String :=
  "\"" ++ sha256 ++ (if shouldSSR then "-ssr" else "") ++ "\""

/-- Outcome of the header/conditional-request fragment of
`app.get('*')`: the ETag header value, the status code and whether a
body is sent. -/
structure CondResult where
  etag : String
  status : Nat
  bodySent : Bool
deriving DecidableEq, Repr

/-- The conditional-request handling of `app.get('*')`: the `ETag`
header is set to the computed ETag; a request whose `If-None-Match`
equals it gets `304` with no body (`res.status(304).end()`), otherwise
`200` with the content. -/
def serveConditional (sha256 : String) (shouldSSR : Bool)
    (ifNoneMatch : Option String) : CondResult :=
  let expectedETag := computeETag sha256 shouldSSR
  if ifNoneMatch = some expectedETag then
    { etag := expectedETag, status := 304, bodySent := false }
  else
    { etag := expectedETag, status := 200, bodySent := true }

/-- Invariant of the `relays` namespace: every cached relay list is
nonempty. -/
def relaysInv (c : CacheState) : Prop :=
  ∀ p l, c.relays.lookup p = some l → l ≠ []

/-- Invariant of the `servers` namespace: every cached server list is
nonempty. -/
def serversInv (c : CacheState) : Prop :=
  ∀ p l, c.servers.lookup p = some l → l ≠ []

/-! ## Concrete fixtures used by closed theorems -/

/-- The empty resolver-level cache. -/
def emptyCache : CacheState :=
  { pathBlobs := [], negative := [], relays := [], servers := [] }

/-- The empty resolver state. -/
def emptyRVState : RVState :=
  { cache := emptyCache, queries := [], attempts := [] }

/-- A relay network that has no events at all (every query yields `[]`). -/
def noEventsDB : RelayDB := fun _ _ => Except.ok []

/-- A cached mapping fixture. -/
def peH7 : ParsedEvent :=
  { pubkey := "pk", path := "/a", sha256 := "h7", created_at := 7 }

/-- A resolver cache holding only the `peH7` mapping under key `pk/a`. -/
def cacheWithH7 : CacheState :=
  { pathBlobs := [("pk" ++ "/a", peH7)], negative := [], relays := [], servers := [] }

/-- A MAPPING event with `d` and `x` tags and `created_at = 50`. -/
def evOld : NostrEvent :=
  { pubkey := "pk", created_at := 50, kind := 34128,
    tags := [["d", "/a"], ["x", "oldhash"]] }

/-- A MAPPING event with a `d` tag but no `x` tag. -/
def evNoX : NostrEvent :=
  { pubkey := "pk", created_at := 2, kind := 34128, tags := [["d", "/a"]] }

/-- A resolver cache holding a mapping for `pk/a` with `created_at = 100`. -/
def cacheWithNew : CacheState :=
  { pathBlobs := [("pk" ++ "/a",
      { pubkey := "pk", path := "/a", sha256 := "newhash", created_at := 100 })],
    negative := [], relays := [], servers := [] }

/-- A cache configuration with sliding expiration enabled. -/
def cfgSlidingOn : CacheConfig :=
  { slidingExpiration := true, cacheTime := 3600,
    fileContentCacheTtlMs := 1800000, negativeCacheTtlMs := 10000 }

/-- The same configuration with sliding expiration disabled. -/
def cfgSlidingOff : CacheConfig :=
  { slidingExpiration := false, cacheTime := 3600,
    fileContentCacheTtlMs := 1800000, negativeCacheTtlMs := 10000 }

/-- Keyv caches holding a single live `blobs` entry. -/
def cachesWithBlobURL : Caches :=
  { pubkeyDomains := [], pubkeyServers := [], pubkeyRelays := [],
    pathBlobs := [], blobURLs := [("h", { value := ["u"], expiresAt := 1000 })],
    fileContent := [], negativeCache := [] }

/-! ## Basic association-list lemmas -/

theorem lookup_cons {β : Type} (a k : String) (v : β) (xs : List (String × β)) :
    ((k, v) :: xs).lookup a = if a = k then some v else xs.lookup a := by
  by_cases h : a = k
  · simp [List.lookup, beq_iff_eq, h]
  · simp [List.lookup, beq_eq_false_iff_ne.mpr h, h]

theorem lookup_removeKey {β : Type} (key : String) (xs : List (String × β)) :
    (xs.filter fun kv => kv.1 ≠ key).lookup key = none := by
  induction xs with
  | nil => rfl
  | cons hd tl ih =>
    obtain ⟨k0, v0⟩ := hd
    by_cases h : k0 = key
    · simpa [List.filter_cons, h] using ih
    · simpa [List.filter_cons, h, lookup_cons, Ne.symm h] using ih

theorem lookup_removeKey_ne {β : Type} {key a : String} (xs : List (String × β))
    (h : a ≠ key) :
    (xs.filter fun kv => kv.1 ≠ key).lookup a = xs.lookup a := by
  induction xs with
  | nil => rfl
  | cons hd tl ih =>
    obtain ⟨k0, v0⟩ := hd
    by_cases hk : k0 = key
    · simpa [List.filter_cons, hk, lookup_cons, h] using ih
    · by_cases ha : a = k0
      · simp [List.filter_cons, hk, lookup_cons, ha]
      · simpa [List.filter_cons, hk, lookup_cons, ha] using ih

/-! ## C2 — path normalization -/

/-- C2 counterexample: the claim's last-segment rule and the code
disagree at `"/v1.2/about"`.  The code checks for a `.` anywhere in the
path (`!normalizedPath.includes('.')`), so this path — whose last
segment `about` has no dot — is served unchanged, while the claim
demands `"/v1.2/about/index.html"`. -/
theorem normalizePath_claim_counterexample :
    normalizePath "/v1.2/about" = "/v1.2/about" ∧
    strEndsWith "/v1.2/about" "/" = false ∧
    strContainsChar (lastSegment "/v1.2/about") '.' = false ∧
    normalizePathSpec "/v1.2/about" = "/v1.2/about/index.html" := by
  refine ⟨?_, ?_, ?_, ?_⟩ <;> decide

/-- C2 (amended): the served path is `P ++ "index.html"` when `P` ends
with `/`; `P ++ "/index.html"` when `P` does not end with `/` and
contains no `.` anywhere; and `P` unchanged otherwise; in particular
`/` ↦ `/index.html`, `/blog/` ↦ `/blog/index.html`,
`/about` ↦ `/about/index.html`, `/a.css` ↦ `/a.css`. -/
theorem normalizePath_amended (p : String) :
    (strEndsWith p "/" = true → normalizePath p = p ++ "index.html") ∧
    (strEndsWith p "/" = false → strContainsChar p '.' = false →
      normalizePath p = p ++ "/index.html") ∧
    (strEndsWith p "/" = false → strContainsChar p '.' = true → normalizePath p = p) ∧
    normalizePath "/" = "/index.html" ∧
    normalizePath "/blog/" = "/blog/index.html" ∧
    normalizePath "/about" = "/about/index.html" ∧
    normalizePath "/a.css" = "/a.css" := by
  refine ⟨?_, ?_, ?_, ?_, ?_, ?_, ?_⟩
  · intro h; simp [normalizePath, h]
  · intro h1 h2; simp [normalizePath, h1, h2]
  · intro h1 h2; simp [normalizePath, h1, h2]
  all_goals decide

/-- Witness for `normalizePath_amended` at `p = "/about"`. -/
theorem normalizePath_amended_witness :
    strEndsWith "/about" "/" = false ∧ strContainsChar "/about" '.' = false ∧
    normalizePath "/about" = "/about/index.html" :=
  ⟨by decide, by decide,
    (normalizePath_amended "/about").2.1 (by decide) (by decide)⟩

/-! ## C9 — ETag and conditional requests -/

/-- C9 counterexample: an SSR-rendered response (reachable:
`shouldRenderSSR` is `true` for an enabled config, HTML content type,
non-bot user agent and a non-API path) carries
`ETag = "\"<sha256>-ssr\""`, not the bare quoted sha256. -/
theorem etag_ssr_counterexample :
    shouldRenderSSR true "text/html" "/index.html" none = true ∧
    (serveConditional "abc" true none).etag = "\"abc-ssr\"" ∧
    (serveConditional "abc" true none).etag ≠ "\"abc\"" := by
  refine ⟨?_, ?_, ?_⟩ <;> decide

/-- C9 (amended): the ETag header is the sha256 in double quotes with
`-ssr` appended inside the quotes exactly when the response was
SSR-rendered (so for non-SSR responses it is the quoted sha256 as
claimed); a request whose `If-None-Match` equals the computed ETag gets
status 304 with no body, any other request gets 200 with the body. -/
theorem serveConditional_amended (sha256 : String) (shouldSSR : Bool)
    (ifNoneMatch : Option String) :
    ((serveConditional sha256 shouldSSR ifNoneMatch).etag =
      "\"" ++ sha256 ++ (if shouldSSR then "-ssr" else "") ++ "\"") ∧
    (shouldSSR = false →
      (serveConditional sha256 shouldSSR ifNoneMatch).etag = "\"" ++ sha256 ++ "\"") ∧
    (ifNoneMatch = some (computeETag sha256 shouldSSR) →
      (serveConditional sha256 shouldSSR ifNoneMatch).status = 304 ∧
      (serveConditional sha256 shouldSSR ifNoneMatch).bodySent = false) ∧
    (ifNoneMatch ≠ some (computeETag sha256 shouldSSR) →
      (serveConditional sha256 shouldSSR ifNoneMatch).status = 200 ∧
      (serveConditional sha256 shouldSSR ifNoneMatch).bodySent = true) := by
  refine ⟨?_, ?_, ?_, ?_⟩
  · simp only [serveConditional]
    rw [apply_ite CondResult.etag]
    simp [computeETag]
  · intro h
    simp only [serveConditional]
    rw [apply_ite CondResult.etag]
    simp [computeETag, h]
  · intro h; simp [serveConditional, h]
  · intro h; simp [serveConditional, h]

/-- Witness for `serveConditional_amended`: a matching `If-None-Match`
on a non-SSR response yields 304 without a body. -/
theorem serveConditional_amended_witness :
    (serveConditional "h" false (some "\"h\"")).status = 304 ∧
    (serveConditional "h" false (some "\"h\"")).bodySent = false :=
  (serveConditional_amended "h" false (some "\"h\"")).2.2.1 (by decide)

/-! ## C7 — fetchFile with an empty server list -/

/-- C7 counterexample: with the blob already in the content cache,
`fetchFile` with an *empty* server list returns the cached bytes — not
the absent result the claim demands for every sha256 and path hint.  (It
still contacts no server.) -/
theorem fetchFile_empty_servers_counterexample :
    (fetchFile
        { mimeLookup := fun _ => none, validateContent := fun _ _ => false,
          fetchFromServer := fun _ _ _ => none }
        [("file:h", [1, 2, 3])] "h" [] "").1 =
      some { content := [1, 2, 3], contentType := "application/octet-stream",
             contentLength := 3, sha256 := "h" } ∧
    (fetchFile
        { mimeLookup := fun _ => none, validateContent := fun _ _ => false,
          fetchFromServer := fun _ _ _ => none }
        [("file:h", [1, 2, 3])] "h" [] "").2.2 = [] := by
  constructor <;> rfl

/-- C7 (amended): when the content cache does not hold `sha256`, a
`fetchFile` call with an empty server list returns `none` immediately,
contacts no server and leaves the cache unchanged; a content-cache hit
returns the cached bytes, still contacting no server. -/
theorem fetchFile_empty_servers (oracles : BlossomOracles)
    (cache : List (String × List Nat)) (sha256 path : String)
    (hmiss : cache.lookup ("file:" ++ sha256) = none) :
    fetchFile oracles cache sha256 [] path = (none, cache, []) := by
  simp [fetchFile, hmiss, fetchFileLoop]

/-- Witness for `fetchFile_empty_servers` on an empty cache. -/
theorem fetchFile_empty_servers_witness :
    fetchFile
      { mimeLookup := fun _ => none, validateContent := fun _ _ => false,
        fetchFromServer := fun _ _ _ => none }
      [] "h" [] "/a.css" = (none, [], []) :=
  fetchFile_empty_servers _ [] "h" "/a.css" rfl

/-! ## C5 — invalidation subscriber's MAPPING-event handling -/

/-- C5: for every MAPPING event handled by the invalidation subscriber:
no truthy `d` tag ⇒ the cache is unchanged; a `d` tag but no truthy `x`
tag ⇒ the path mapping for `(pubkey, d)` is deleted (and nothing else is
touched); both tags ⇒ the mapping for `(pubkey, d)` is upserted with the
`x`-tag hash. -/
theorem handleStaticFileEvent_cases (c : CacheState) (event : NostrEvent) :
    (findTagValue event.tags "d" = none → handleStaticFileEvent c event = c) ∧
    (∀ path, findTagValue event.tags "d" = some path →
      findTagValue event.tags "x" = none →
      (handleStaticFileEvent c event).pathBlobs.lookup (event.pubkey ++ path) = none ∧
      (∀ k, k ≠ event.pubkey ++ path →
        (handleStaticFileEvent c event).pathBlobs.lookup k = c.pathBlobs.lookup k) ∧
      (handleStaticFileEvent c event).negative = c.negative ∧
      (handleStaticFileEvent c event).relays = c.relays ∧
      (handleStaticFileEvent c event).servers = c.servers) ∧
    (∀ path sha256, findTagValue event.tags "d" = some path →
      findTagValue event.tags "x" = some sha256 →
      (handleStaticFileEvent c event).pathBlobs.lookup (event.pubkey ++ path) =
        some { pubkey := event.pubkey, path := path, sha256 := sha256,
               created_at := event.created_at }) := by
  refine ⟨?_, ?_, ?_⟩
  · intro h; simp [handleStaticFileEvent, h]
  · intro path hd hx
    refine ⟨?_, ?_, ?_, ?_, ?_⟩
    · simp [handleStaticFileEvent, hd, hx, CacheState.invalidateBlobForPath,
        lookup_removeKey]
      intro a b _ h hh
      exact h hh.symm
    · intro k hk
      simp only [handleStaticFileEvent, hd, hx, CacheState.invalidateBlobForPath]
      exact lookup_removeKey_ne _ hk
    · simp [handleStaticFileEvent, hd, hx, CacheState.invalidateBlobForPath]
    · simp [handleStaticFileEvent, hd, hx, CacheState.invalidateBlobForPath]
    · simp [handleStaticFileEvent, hd, hx, CacheState.invalidateBlobForPath]
  · intro path sha256 hd hx
    simp [handleStaticFileEvent, hd, hx, CacheState.setBlobForPath, lookup_cons]

/-- Witness for `handleStaticFileEvent_cases`: an event with a `d` tag
but no `x` tag deletes the cached mapping. -/
theorem handleStaticFileEvent_cases_witness :
    (handleStaticFileEvent cacheWithH7 evNoX).pathBlobs.lookup ("pk" ++ "/a") = none :=
  ((handleStaticFileEvent_cases cacheWithH7 evNoX).2.1 "/a"
    (by decide) (by decide)).1

/-! ## C3 — created_at and cached-mapping replacement -/

/-- C3 counterexample: a cached mapping with `created_at = 100` is
overwritten by a later-processed event with `created_at = 50` — the
invalidation subscriber performs no `created_at` comparison, so an older
event does replace a newer cached mapping, contradicting the claim that
only strictly newer events supersede. -/
theorem staleOverwrite_counterexample :
    (handleStaticFileEvent cacheWithNew evOld).pathBlobs.lookup ("pk" ++ "/a") =
      some { pubkey := "pk", path := "/a", sha256 := "oldhash", created_at := 50 } ∧
    (50 : Int) < 100 := by
  constructor <;> decide

/-- C3 (amended): a MAPPING event carrying both `d` and `x` tags
*unconditionally* replaces the cached mapping for `(pubkey, d)` when
handled by the invalidation subscriber, regardless of how its
`created_at` compares with the cached one's; the resolver, for its part,
writes a mapping only on a cache miss — on a hit it returns the cached
hash and changes no cache. -/
theorem mappingReplacement_amended :
    (∀ (c : CacheState) (event : NostrEvent) (path sha256 : String),
      findTagValue event.tags "d" = some path →
      findTagValue event.tags "x" = some sha256 →
      (handleStaticFileEvent c event).pathBlobs.lookup (event.pubkey ++ path) =
        some { pubkey := event.pubkey, path := path, sha256 := sha256,
               created_at := event.created_at }) ∧
    (∀ (cfg : Config) (db : RelayDB) (pubkey path : String) (st : RVState)
        (cached : ParsedEvent),
      st.cache.pathBlobs.lookup (pubkey ++ path) = some cached →
      getStaticFileMapping cfg db pubkey path st =
        (some cached.sha256, { st with attempts := st.attempts ++ [path] })) := by
  constructor
  · intro c event path sha256 hd hx
    simp [handleStaticFileEvent, hd, hx, CacheState.setBlobForPath, lookup_cons]
  · intro cfg db pubkey path st cached hhit
    simp [getStaticFileMapping, getStaticFileMappingFuel, hhit]

/-- Witness for `mappingReplacement_amended`: the subscriber-side upsert
at a concrete event, and the resolver-side cache hit at a concrete
state. -/
theorem mappingReplacement_amended_witness :
    (handleStaticFileEvent emptyCache evOld).pathBlobs.lookup ("pk" ++ "/a") =
      some { pubkey := "pk", path := "/a", sha256 := "oldhash", created_at := 50 } ∧
    getStaticFileMapping { defaultRelays := [], defaultBlossomServers := [] }
        noEventsDB "pk" "/a" { cache := cacheWithH7, queries := [], attempts := [] } =
      (some "h7", { cache := cacheWithH7, queries := [], attempts := ["/a"] }) :=
  ⟨mappingReplacement_amended.1 emptyCache evOld "/a" "oldhash"
      (by decide) (by decide),
    mappingReplacement_amended.2 _ noEventsDB "pk" "/a"
      { cache := cacheWithH7, queries := [], attempts := [] } peH7 (by decide)⟩

/-! ## C4 — sliding expiration across namespaces -/

/-- C4 counterexample: with sliding expiration enabled, a hit in the
`blobs` namespace (`getBlobURLs`) *also* re-puts the entry with a full
TTL (here extending the expiry from 1000 to `500 + 3600·1000`),
contradicting the claim that only the `domains`, `relays`, `servers` and
`paths` namespaces refresh on a hit. -/
theorem slidingExpiration_blobs_counterexample :
    ((getBlobURLs cfgSlidingOn cachesWithBlobURL "h" 500).2.blobURLs).lookup "h" =
      some { value := ["u"], expiresAt := 3600500 } ∧
    cachesWithBlobURL.blobURLs.lookup "h" =
      some { value := ["u"], expiresAt := 1000 } := by
  constructor <;> rfl

/-- C4 (amended): when the sliding-expiration flag is disabled, no cache
get changes any cache (no entry's lifetime is extended), and a negative
check never changes the cache whatever the flag; when the flag is
enabled, a live hit re-puts the same value with a fresh full TTL in the
`domains` (for a truthy value), `servers`, `relays`, `paths` *and*
`blobs` namespaces (expiry `now + cacheTime·1000`), and in the `content`
namespace with its own TTL — the content refresh is tied to the same
global flag, not to a separate opt-in. -/
theorem slidingExpiration_amended (cfg : CacheConfig) (cs : Caches)
    (k : String) (now : Nat) :
    (cfg.slidingExpiration = false →
      (getPubkeyForDomain cfg cs k now).2 = cs ∧
      (getBlossomServersForPubkey cfg cs k now).2 = cs ∧
      (getRelaysForPubkey cfg cs k now).2 = cs ∧
      (∀ path, (getBlobForPath cfg cs k path now).2 = cs) ∧
      (getBlobURLs cfg cs k now).2 = cs ∧
      (getFileContent cfg cs k now).2 = cs) ∧
    ((isNegativeCached cs k now).2 = cs) ∧
    (cfg.slidingExpiration = true →
      (∀ v, kvGet cs.pubkeyDomains k now = some v → v ≠ "" →
        (getPubkeyForDomain cfg cs k now).2.pubkeyDomains =
          kvSet cs.pubkeyDomains k v now (cfg.cacheTime * 1000)) ∧
      (∀ v, kvGet cs.pubkeyServers k now = some v →
        (getBlossomServersForPubkey cfg cs k now).2.pubkeyServers =
          kvSet cs.pubkeyServers k v now (cfg.cacheTime * 1000)) ∧
      (∀ v, kvGet cs.pubkeyRelays k now = some v →
        (getRelaysForPubkey cfg cs k now).2.pubkeyRelays =
          kvSet cs.pubkeyRelays k v now (cfg.cacheTime * 1000)) ∧
      (∀ path v, kvGet cs.pathBlobs (k ++ path) now = some v →
        (getBlobForPath cfg cs k path now).2.pathBlobs =
          kvSet cs.pathBlobs (k ++ path) v now (cfg.cacheTime * 1000)) ∧
      (∀ v, kvGet cs.blobURLs k now = some v →
        (getBlobURLs cfg cs k now).2.blobURLs =
          kvSet cs.blobURLs k v now (cfg.cacheTime * 1000)) ∧
      (∀ v, kvGet cs.fileContent k now = some v →
        cfg.fileContentCacheTtlMs / 1000 ≠ 0 →
        (getFileContent cfg cs k now).2.fileContent =
          kvSet cs.fileContent k v now ((cfg.fileContentCacheTtlMs / 1000) * 1000))) := by
  refine ⟨?_, rfl, ?_⟩
  · intro hoff
    refine ⟨?_, ?_, ?_, ?_, ?_, ?_⟩ <;>
      first
      | (simp [getPubkeyForDomain, getWithSlidingExpiration, hoff]
         rcases kvGet cs.pubkeyDomains k now with _ | v <;> simp)
      | (simp [getBlossomServersForPubkey, getWithSlidingExpiration, hoff]
         rcases kvGet cs.pubkeyServers k now with _ | v <;> simp)
      | (simp [getRelaysForPubkey, getWithSlidingExpiration, hoff]
         rcases kvGet cs.pubkeyRelays k now with _ | v <;> simp)
      | (intro path
         simp [getBlobForPath, getWithSlidingExpiration, hoff]
         rcases kvGet cs.pathBlobs (k ++ path) now with _ | v <;> simp)
      | (simp [getBlobURLs, getWithSlidingExpiration, hoff]
         rcases kvGet cs.blobURLs k now with _ | v <;> simp)
      | (simp [getFileContent, getWithSlidingExpiration, hoff]
         rcases kvGet cs.fileContent k now with _ | v <;> simp)
  · intro hon
    refine ⟨?_, ?_, ?_, ?_, ?_, ?_⟩
    · intro v hget hv
      simp [getPubkeyForDomain, getWithSlidingExpiration, hon, hget, strTruthy, hv]
    · intro v hget
      simp [getBlossomServersForPubkey, getWithSlidingExpiration, hon, hget, objTruthy]
    · intro v hget
      simp [getRelaysForPubkey, getWithSlidingExpiration, hon, hget, objTruthy]
    · intro path v hget
      simp [getBlobForPath, getWithSlidingExpiration, hon, hget, objTruthy]
    · intro v hget
      simp [getBlobURLs, getWithSlidingExpiration, hon, hget, objTruthy]
    · intro v hget httl
      simp [getFileContent, getWithSlidingExpiration, hon, hget, objTruthy, httl]

/-- Witness for `slidingExpiration_amended`: with the flag off, a read
of the `blobs` namespace leaves the caches untouched. -/
theorem slidingExpiration_amended_witness :
    (getBlobURLs cfgSlidingOff cachesWithBlobURL "h" 500).2 = cachesWithBlobURL :=
  ((slidingExpiration_amended cfgSlidingOff cachesWithBlobURL "h" 500).1 rfl).2.2.2.2.1


/-! ## C8 — serializer round-trip -/

theorem lookup_serializeFields (fields : List (String × JSValue)) (k : String) :
    (serializeFields fields).lookup k =
      (fields.lookup k).map serializeWithUint8Array := by
  induction fields with
  | nil => rfl
  | cons kv rest ih =>
    obtain ⟨a, v⟩ := kv
    by_cases h : k = a <;> simp [serializeFields, lookup_cons, h, ih]

theorem isUint8Tag_map_serialize (o : Option JSValue) :
    isUint8Tag (o.map serializeWithUint8Array) = isUint8Tag o := by
  rcases o with _ | v
  · rfl
  · cases v <;> simp [isUint8Tag, serializeWithUint8Array]

theorem isArrOpt_map_serialize (o : Option JSValue) :
    isArrOpt (o.map serializeWithUint8Array) = isArrOpt o := by
  rcases o with _ | v
  · rfl
  · cases v <;> simp [isArrOpt, serializeWithUint8Array]

theorem isReservedTag_serializeFields (fields : List (String × JSValue)) :
    isReservedTag (serializeFields fields) = isReservedTag fields := by
  simp [isReservedTag, lookup_serializeFields, isUint8Tag_map_serialize,
    isArrOpt_map_serialize]

theorem deserialize_obj_default (fields : List (String × JSValue))
    (h : isReservedTag fields = false) :
    deserializeWithUint8Array (JSValue.obj fields) =
      JSValue.obj (deserializeFields fields) := by
  rw [deserializeWithUint8Array]
  split
  · rename_i heq1 heq2
    simp [isReservedTag, heq1, heq2, isUint8Tag, isArrOpt] at h
  · rfl

theorem wellFormedList_mem {items : List JSValue} {v : JSValue}
    (h : wellFormedList items = true) (hv : v ∈ items) :
    wellFormedJS v = true := by
  induction items with
  | nil => cases hv
  | cons hd tl ih =>
    rw [wellFormedList] at h
    rcases List.mem_cons.mp hv with rfl | hmem
    · exact (Bool.and_eq_true_iff.mp h).1
    · exact ih (Bool.and_eq_true_iff.mp h).2 hmem

theorem wellFormedFields_mem {fields : List (String × JSValue)}
    {kv : String × JSValue} (h : wellFormedFields fields = true)
    (hv : kv ∈ fields) : wellFormedJS kv.2 = true := by
  induction fields with
  | nil => cases hv
  | cons hd tl ih =>
    obtain ⟨a, v⟩ := hd
    rw [wellFormedFields] at h
    rcases List.mem_cons.mp hv with rfl | hmem
    · exact (Bool.and_eq_true_iff.mp h).1
    · exact ih (Bool.and_eq_true_iff.mp h).2 hmem

theorem deserializeList_serializeList (items : List JSValue)
    (h : ∀ v ∈ items,
      deserializeWithUint8Array (serializeWithUint8Array v) = v) :
    deserializeList (serializeList items) = items := by
  induction items with
  | nil => rfl
  | cons hd tl ih =>
    rw [serializeList, deserializeList, h hd (List.mem_cons_self hd tl),
      ih fun v hv => h v (List.mem_cons_of_mem hd hv)]

theorem deserializeFields_serializeFields (fields : List (String × JSValue))
    (h : ∀ kv ∈ fields,
      deserializeWithUint8Array (serializeWithUint8Array kv.2) = kv.2) :
    deserializeFields (serializeFields fields) = fields := by
  induction fields with
  | nil => rfl
  | cons hd tl ih =>
    obtain ⟨a, v⟩ := hd
    have hv : deserializeWithUint8Array (serializeWithUint8Array v) = v :=
      h (a, v) (List.mem_cons_self (a, v) tl)
    rw [serializeFields, deserializeFields, hv,
      ih fun kv hkv => h kv (List.mem_cons_of_mem (a, v) hkv)]

theorem roundTripAux (n : Nat) : ∀ v : JSValue, sizeOf v ≤ n →
    wellFormedJS v = true →
    deserializeWithUint8Array (serializeWithUint8Array v) = v := by
  induction n with
  | zero =>
    intro v hsize _
    exfalso
    have hpos : 0 < sizeOf v := by cases v <;> simp_arith
    omega
  | succ n ih =>
    intro v hsize hwf
    cases v with
    | str s => rfl
    | num m => rfl
    | bool b => rfl
    | jsNull => rfl
    | bytes bs =>
      rw [wellFormedJS] at hwf
      rw [serializeWithUint8Array]
      simp [deserializeWithUint8Array, List.lookup, List.map_map]
      calc List.map (toByte ∘ fun b => JSValue.num (Int.ofNat b)) bs
          = List.map id bs := List.map_congr_left fun b hb => by
            have hlt : b < 256 := by simpa using List.all_eq_true.mp hwf b hb
            simp [toByte]
            omega
        _ = bs := List.map_id bs
    | arr items =>
      rw [wellFormedJS] at hwf
      rw [serializeWithUint8Array, deserializeWithUint8Array]
      congr 1
      refine deserializeList_serializeList items fun v hv => ?_
      have hs : sizeOf v ≤ n := by
        have h1 := List.sizeOf_lt_of_mem hv
        have h2 : sizeOf (JSValue.arr items) = 1 + sizeOf items := by simp
        omega
      exact ih v hs (wellFormedList_mem hwf hv)
    | obj fields =>
      rw [wellFormedJS] at hwf
      obtain ⟨hres, hwff⟩ := Bool.and_eq_true_iff.mp hwf
      rw [serializeWithUint8Array]
      rw [deserialize_obj_default _
        (by rw [isReservedTag_serializeFields]; simpa using hres)]
      congr 1
      refine deserializeFields_serializeFields fields fun kv hv => ?_
      have hs : sizeOf kv.2 ≤ n := by
        have h1 := List.sizeOf_lt_of_mem hv
        have h2 : sizeOf (JSValue.obj fields) = 1 + sizeOf fields := by simp
        obtain ⟨a, v⟩ := kv
        simp only [Prod.mk.sizeOf_spec] at h1
        simp only []
        omega
      exact ih kv.2 hs (wellFormedFields_mem hwff hv)

/-- C8 counterexample: `vBad` is an object containing a byte array (so
it lies in the claimed domain: "any object or array containing byte
arrays at any nesting depth"), yet the round trip does not return it
bit-identically: its sibling field `b` spells the reserved
`{__type:'Uint8Array', data:[…]}` tag as a *plain object*, and the
deserializer turns that plain object into a byte array. -/
theorem serializeRoundTrip_counterexample :
    containsBytes vBad = true ∧
    deserializeWithUint8Array (serializeWithUint8Array vBad) =
      JSValue.obj [("a", JSValue.bytes [1]), ("b", JSValue.bytes [2])] ∧
    deserializeWithUint8Array (serializeWithUint8Array vBad) ≠ vBad := by
  refine ⟨?_, ?_, ?_⟩
  · simp [vBad, containsBytes, containsBytesFields]
  · simp [vBad, serializeWithUint8Array, serializeFields, serializeList,
      deserializeWithUint8Array, deserializeFields, deserializeList,
      List.lookup, toByte]
  · simp [vBad, serializeWithUint8Array, serializeFields, serializeList,
      deserializeWithUint8Array, deserializeFields, deserializeList,
      List.lookup, toByte]

/-- C8 (amended): `deserialize ∘ serialize` is the identity — every byte
array recovered bit-identically as a byte array — on every value whose
byte arrays hold actual bytes and in which no *plain* object spells the
reserved `{__type:'Uint8Array', data:[…]}` tag that the format uses to
mark byte arrays (in-band tagging makes such values inherently
ambiguous; no cached value shape — `Uint8Array`, `string[]`,
`ParsedEvent` — produces them). -/
theorem serializeRoundTrip (v : JSValue) (h : wellFormedJS v = true) :
    deserializeWithUint8Array (serializeWithUint8Array v) = v :=
  roundTripAux (sizeOf v) v le_rfl h

/-- Witness for `serializeRoundTrip` at `vGood`, a nested object/array
value containing two byte arrays. -/
theorem serializeRoundTrip_witness :
    deserializeWithUint8Array (serializeWithUint8Array vGood) = vGood :=
  serializeRoundTrip vGood (by
    simp [vGood, wellFormedJS, wellFormedFields, wellFormedList,
      isReservedTag, isUint8Tag, isArrOpt, List.lookup])

/-! ## Characterization of `getRelayList` -/

theorem relaysSet_lookup (c : CacheState) (pubkey : String)
    (final : List String) :
    (c.setRelaysForPubkey pubkey final).relays.lookup pubkey = some final ∧
    (∀ q, q ≠ pubkey →
      (c.setRelaysForPubkey pubkey final).relays.lookup q = c.relays.lookup q) ∧
    (final ≠ [] → relaysInv c → relaysInv (c.setRelaysForPubkey pubkey final)) := by
  refine ⟨?_, ?_, ?_⟩
  · simp [CacheState.setRelaysForPubkey, lookup_cons]
  · intro q hq
    simp [CacheState.setRelaysForPubkey, lookup_cons, hq]
  · intro hfinal hinv p l hl
    rw [CacheState.setRelaysForPubkey] at hl
    rw [lookup_cons] at hl
    by_cases hp : p = pubkey
    · rw [if_pos hp] at hl
      cases hl
      exact hfinal
    · rw [if_neg hp] at hl
      exact hinv p l hl

theorem getRelayList_run (cfg : Config) (db : RelayDB) (pubkey : String)
    (st : RVState) :
    ∃ l st₁ qs, getRelayList cfg db pubkey st = (l, st₁) ∧
      st₁.cache.pathBlobs = st.cache.pathBlobs ∧
      st₁.cache.negative = st.cache.negative ∧
      st₁.cache.servers = st.cache.servers ∧
      st₁.attempts = st.attempts ∧
      st₁.queries = st.queries ++ qs ∧
      (∀ x ∈ qs, x.2 = relayListFilter pubkey) ∧
      st₁.cache.relays.lookup pubkey = some l ∧
      (∀ q, q ≠ pubkey → st₁.cache.relays.lookup q = st.cache.relays.lookup q) ∧
      (cfg.defaultRelays ≠ [] → relaysInv st.cache → l ≠ [] ∧ relaysInv st₁.cache) := by
  cases hcached : st.cache.relays.lookup pubkey with
  | some cached =>
    refine ⟨cached, st, [], ?_, rfl, rfl, rfl, rfl, by simp, by simp, hcached,
      fun q hq => rfl, fun _ hinv => ⟨hinv _ _ hcached, hinv⟩⟩
    rw [getRelayList, hcached]
  | none =>
    rw [getRelayList, hcached]
    simp only [queryRelays]
    by_cases hemp : (sortActiveRelays cfg.defaultRelays).isEmpty
    · rw [if_pos hemp]
      obtain ⟨hl1, hl2, hl3⟩ := relaysSet_lookup st.cache pubkey cfg.defaultRelays
      exact ⟨cfg.defaultRelays, _, [], rfl, rfl, rfl, rfl, rfl, by simp,
        by simp, hl1, hl2, fun hne hinv => ⟨hne, hl3 hne hinv⟩⟩
    · rw [if_neg hemp]
      cases hdb : db (sortActiveRelays cfg.defaultRelays) (relayListFilter pubkey) with
      | error e =>
        obtain ⟨hl1, hl2, hl3⟩ := relaysSet_lookup st.cache pubkey cfg.defaultRelays
        exact ⟨cfg.defaultRelays, _,
          [(sortActiveRelays cfg.defaultRelays, relayListFilter pubkey)],
          rfl, rfl, rfl, rfl, rfl, rfl, by simp, hl1, hl2,
          fun hne hinv => ⟨hne, hl3 hne hinv⟩⟩
      | ok evs =>
        cases evs with
        | nil =>
          obtain ⟨hl1, hl2, hl3⟩ := relaysSet_lookup st.cache pubkey cfg.defaultRelays
          exact ⟨cfg.defaultRelays, _,
            [(sortActiveRelays cfg.defaultRelays, relayListFilter pubkey)],
            rfl, rfl, rfl, rfl, rfl, rfl, by simp, hl1, hl2,
            fun hne hinv => ⟨hne, hl3 hne hinv⟩⟩
        | cons ev rest =>
          by_cases hparse : (parseRelayTags ev.tags).length > 0
          · obtain ⟨hl1, hl2, hl3⟩ :=
              relaysSet_lookup st.cache pubkey (parseRelayTags ev.tags)
            refine ⟨parseRelayTags ev.tags,
              { cache := st.cache.setRelaysForPubkey pubkey (parseRelayTags ev.tags),
                queries := st.queries ++
                  [(sortActiveRelays cfg.defaultRelays, relayListFilter pubkey)],
                attempts := st.attempts },
              [(sortActiveRelays cfg.defaultRelays, relayListFilter pubkey)],
              ?_, rfl, rfl, rfl, rfl, rfl, by simp, hl1, hl2, ?_⟩
            · simp [hparse]
            · intro hne hinv
              have hpne : parseRelayTags ev.tags ≠ [] :=
                List.ne_nil_of_length_pos hparse
              exact ⟨hpne, hl3 hpne hinv⟩
          · obtain ⟨hl1, hl2, hl3⟩ :=
              relaysSet_lookup st.cache pubkey cfg.defaultRelays
            refine ⟨cfg.defaultRelays,
              { cache := st.cache.setRelaysForPubkey pubkey cfg.defaultRelays,
                queries := st.queries ++
                  [(sortActiveRelays cfg.defaultRelays, relayListFilter pubkey)],
                attempts := st.attempts },
              [(sortActiveRelays cfg.defaultRelays, relayListFilter pubkey)],
              ?_, rfl, rfl, rfl, rfl, rfl, by simp, hl1, hl2,
              fun hne hinv => ⟨hne, hl3 hne hinv⟩⟩
            simp [hparse]

/-! ## C10 — list resolutions never return an empty array -/

theorem serversSet_lookup (c : CacheState) (pubkey : String)
    (final : List String) :
    (c.setBlossomServersForPubkey pubkey final).servers.lookup pubkey = some final ∧
    (∀ q, q ≠ pubkey →
      (c.setBlossomServersForPubkey pubkey final).servers.lookup q =
        c.servers.lookup q) ∧
    (final ≠ [] → serversInv c →
      serversInv (c.setBlossomServersForPubkey pubkey final)) := by
  refine ⟨?_, ?_, ?_⟩
  · simp [CacheState.setBlossomServersForPubkey, lookup_cons]
  · intro q hq
    simp [CacheState.setBlossomServersForPubkey, lookup_cons, hq]
  · intro hfinal hinv p l hl
    rw [CacheState.setBlossomServersForPubkey] at hl
    rw [lookup_cons] at hl
    by_cases hp : p = pubkey
    · rw [if_pos hp] at hl
      cases hl
      exact hfinal
    · rw [if_neg hp] at hl
      exact hinv p l hl

/-- C10: provided the configured default relay list and default Blossom
server list are nonempty, `getRelayList` and `getBlossomServers` return
a nonempty array on every code path (cache hit — under the invariant
that every cached list is nonempty —, parsed event with valid tags,
event with zero valid tags, empty query result, and query error, where
defaults are substituted), both preserve the nonemptiness invariants,
and the invalidation handlers that write these caches preserve them too;
hence the front door's `blossomServers.length === 0` rejection branch is
unreachable. -/
theorem listResolversNonempty (cfg : Config) (db : RelayDB) (pubkey : String)
    (st : RVState) (hr : cfg.defaultRelays ≠ []) (hs : cfg.defaultBlossomServers ≠ [])
    (hinvR : relaysInv st.cache) (hinvS : serversInv st.cache) :
    (getRelayList cfg db pubkey st).1 ≠ [] ∧
    relaysInv (getRelayList cfg db pubkey st).2.cache ∧
    serversInv (getRelayList cfg db pubkey st).2.cache ∧
    (getBlossomServers cfg db pubkey st).1 ≠ [] ∧
    relaysInv (getBlossomServers cfg db pubkey st).2.cache ∧
    serversInv (getBlossomServers cfg db pubkey st).2.cache ∧
    (∀ e : NostrEvent, relaysInv (handleRelayListEvent cfg st.cache e) ∧
      serversInv (handleRelayListEvent cfg st.cache e)) ∧
    (∀ e : NostrEvent, relaysInv (handleBlossomServerEvent cfg st.cache e) ∧
      serversInv (handleBlossomServerEvent cfg st.cache e)) := by
  obtain ⟨l, st₁, qs, heq, hpb, hneg, hsrv, hatt, hq, hqf, hlook, hlookne, hinvfun⟩ :=
    getRelayList_run cfg db pubkey st
  obtain ⟨hlne, hinvR₁⟩ := hinvfun hr hinvR
  have hinvS₁ : serversInv st₁.cache := fun p lst hl =>
    hinvS p lst (by rw [← hsrv]; exact hl)
  have hbs : (getBlossomServers cfg db pubkey st).1 ≠ [] ∧
      relaysInv (getBlossomServers cfg db pubkey st).2.cache ∧
      serversInv (getBlossomServers cfg db pubkey st).2.cache := by
    cases hc : st.cache.servers.lookup pubkey with
    | some cached =>
      simp only [getBlossomServers, hc]
      exact ⟨hinvS pubkey cached hc, hinvR, hinvS⟩
    | none =>
      simp only [getBlossomServers, hc, heq, queryRelays]
      by_cases hemp : (sortActiveRelays l).isEmpty
      · rw [if_pos hemp]
        obtain ⟨hs1, hs2, hs3⟩ := serversSet_lookup st₁.cache pubkey
          cfg.defaultBlossomServers
        exact ⟨hs, fun p lst hl => hinvR₁ p lst hl, hs3 hs hinvS₁⟩
      · rw [if_neg hemp]
        cases hdb : db (sortActiveRelays l) (serverListFilter pubkey) with
        | error e =>
          obtain ⟨hs1, hs2, hs3⟩ := serversSet_lookup st₁.cache pubkey
            cfg.defaultBlossomServers
          exact ⟨hs, fun p lst hl => hinvR₁ p lst hl, hs3 hs hinvS₁⟩
        | ok evs =>
          cases evs with
          | nil =>
            obtain ⟨hs1, hs2, hs3⟩ := serversSet_lookup st₁.cache pubkey
              cfg.defaultBlossomServers
            exact ⟨hs, fun p lst hl => hinvR₁ p lst hl, hs3 hs hinvS₁⟩
          | cons ev rest =>
            by_cases hparse : (parseServerTags ev.tags).length > 0
            · obtain ⟨hs1, hs2, hs3⟩ := serversSet_lookup st₁.cache pubkey
                (parseServerTags ev.tags)
              have hpne : parseServerTags ev.tags ≠ [] :=
                List.ne_nil_of_length_pos hparse
              dsimp only
              rw [if_pos hparse]
              exact ⟨hpne, fun p lst hl => hinvR₁ p lst hl, hs3 hpne hinvS₁⟩
            · obtain ⟨hs1, hs2, hs3⟩ := serversSet_lookup st₁.cache pubkey
                cfg.defaultBlossomServers
              dsimp only
              rw [if_neg hparse]
              exact ⟨hs, fun p lst hl => hinvR₁ p lst hl, hs3 hs hinvS₁⟩
  refine ⟨?_, ?_, ?_, hbs.1, hbs.2.1, hbs.2.2, ?_, ?_⟩
  · rw [heq]; exact hlne
  · rw [heq]; exact hinvR₁
  · rw [heq]; exact hinvS₁
  · intro e
    rw [handleRelayListEvent]
    obtain ⟨hr1, hr2, hr3⟩ := relaysSet_lookup st.cache e.pubkey
      (if (parseRelayTags e.tags).length > 0 then parseRelayTags e.tags
       else cfg.defaultRelays)
    constructor
    · refine hr3 ?_ hinvR
      by_cases hp : (parseRelayTags e.tags).length > 0
      · simpa [hp] using List.ne_nil_of_length_pos hp
      · simpa [hp] using hr
    · exact fun p lst hl => hinvS p lst hl
  · intro e
    rw [handleBlossomServerEvent]
    obtain ⟨hb1, hb2, hb3⟩ := serversSet_lookup st.cache e.pubkey
      (if (parseServerTags e.tags).length > 0 then parseServerTags e.tags
       else cfg.defaultBlossomServers)
    constructor
    · exact fun p lst hl => hinvR p lst hl
    · refine hb3 ?_ hinvS
      by_cases hp : (parseServerTags e.tags).length > 0
      · simpa [hp] using List.ne_nil_of_length_pos hp
      · simpa [hp] using hs

/-- Witness for `listResolversNonempty` on the empty cache with a
single default relay and server and an event-free network. -/
theorem listResolversNonempty_witness :
    (getRelayList { defaultRelays := ["wss://r"], defaultBlossomServers := ["https://s"] }
        noEventsDB "pk" emptyRVState).1 ≠ [] ∧
    (getBlossomServers { defaultRelays := ["wss://r"], defaultBlossomServers := ["https://s"] }
        noEventsDB "pk" emptyRVState).1 ≠ [] := by
  have h := listResolversNonempty
    { defaultRelays := ["wss://r"], defaultBlossomServers := ["https://s"] }
    noEventsDB "pk" emptyRVState (by decide) (by decide)
    (fun p l hl => by simp [emptyRVState, emptyCache, List.lookup] at hl)
    (fun p l hl => by simp [emptyRVState, emptyCache, List.lookup] at hl)
  exact ⟨h.1, h.2.2.2.1⟩


/-! ## Characterization of the `/404.html` fallback -/

theorem sortActiveRelays_eq_nil_iff (relays : List String) :
    sortActiveRelays relays = [] ↔ relays = [] := by
  constructor
  · intro h
    cases relays with
    | nil => rfl
    | cons x xs =>
      exfalso
      by_cases hx : priorityRelays.contains x = true
      · have hmem : x ∈ sortActiveRelays (x :: xs) := by
          rw [sortActiveRelays]
          exact List.mem_append_left _
            (List.mem_filter.mpr ⟨List.mem_cons_self x xs, hx⟩)
        rw [h] at hmem
        cases hmem
      · have hmem : x ∈ sortActiveRelays (x :: xs) := by
          rw [sortActiveRelays]
          refine List.mem_append_right _
            (List.mem_filter.mpr ⟨List.mem_cons_self x xs, ?_⟩)
          rw [Bool.not_eq_true] at hx
          rw [hx]
          rfl
        rw [h] at hmem
        cases hmem
  · intro h
    rw [h]
    rfl

theorem queryRelays_run (db : RelayDB) (r : List String) (f : RelayFilter)
    (st : RVState) :
    ∃ res qs, queryRelays db r f st = (res, { st with queries := st.queries ++ qs }) ∧
      ((res = Except.ok [] ∧ qs = []) ∨
        (res = db (sortActiveRelays r) f ∧ qs = [(sortActiveRelays r, f)])) := by
  rw [queryRelays]
  by_cases hemp : (sortActiveRelays r).isEmpty = true
  · rw [if_pos hemp]
    exact ⟨Except.ok [], [], by simp, Or.inl ⟨rfl, rfl⟩⟩
  · rw [if_neg hemp]
    exact ⟨db (sortActiveRelays r) f, [(sortActiveRelays r, f)], rfl,
      Or.inr ⟨rfl, rfl⟩⟩

/-- A resolution of `/404.html` never takes the fallback branch, so its
result does not depend on the available fuel. -/
theorem sfm404_fuel (cfg : Config) (db : RelayDB) (pubkey : String) (k : Nat)
    (st : RVState) :
    getStaticFileMappingFuel cfg db (k + 1) pubkey "/404.html" st =
      getStaticFileMappingFuel cfg db 1 pubkey "/404.html" st := by
  rw [getStaticFileMappingFuel, getStaticFileMappingFuel]
  simp

/-- A fuel-1 activation at `/404.html` appends exactly `"/404.html"` to
the attempts log, whatever the cache and network do. -/
theorem sfm404_attempts (cfg : Config) (db : RelayDB) (pubkey : String)
    (st : RVState) :
    ((getStaticFileMappingFuel cfg db 1 pubkey "/404.html" st).2).attempts =
      st.attempts ++ ["/404.html"] := by
  rw [getStaticFileMappingFuel]
  dsimp only
  split
  · rfl
  · split
    · rfl
    · obtain ⟨l, st₁, qs, heq, hpb, hneg₁, hsrv, hatt, hq, hqf, hl1, hl2, hl3⟩ :=
        getRelayList_run cfg db pubkey
          { st with attempts := st.attempts ++ ["/404.html"] }
      rw [heq]
      dsimp only
      obtain ⟨res1, qs1, heq1, hd1⟩ :=
        queryRelays_run db l (mappingFilter pubkey "/404.html") st₁
      rw [heq1]
      dsimp only
      cases res1 with
      | error e => exact hatt
      | ok evs =>
        cases evs with
        | cons ev rest =>
          dsimp only
          cases hx : findTagValue ev.tags "x" with
          | none => exact hatt
          | some sha256 => exact hatt
        | nil =>
          dsimp only
          by_cases hlen : l.length <
              (l ++ List.filter (fun relay => !l.contains relay) cfg.defaultRelays).length
          · rw [if_pos hlen]
            obtain ⟨res2, qs2, heq2, hd2⟩ := queryRelays_run db
              (l ++ List.filter (fun relay => !l.contains relay) cfg.defaultRelays)
              (mappingFilter pubkey "/404.html")
              { cache := st₁.cache, queries := st₁.queries ++ qs1,
                attempts := st₁.attempts }
            rw [heq2]
            dsimp only
            cases res2 with
            | error e => exact hatt
            | ok evs2 =>
              cases evs2 with
              | cons ev rest =>
                dsimp only
                cases hx : findTagValue ev.tags "x" with
                | none => exact hatt
                | some sha256 => exact hatt
              | nil =>
                dsimp only
                rw [if_neg (by simp : ¬("/404.html" : String) ≠ "/404.html")]
                exact hatt
          · rw [if_neg hlen]
            dsimp only
            rw [if_neg (by simp : ¬("/404.html" : String) ≠ "/404.html")]
            exact hatt

/-- Fuel 2 is enough for the whole resolver: any extra fuel yields the
same result (the fallback recursion has depth at most 1). -/
theorem sfm_fuel (cfg : Config) (db : RelayDB) (pubkey path : String)
    (st : RVState) (k : Nat) :
    getStaticFileMappingFuel cfg db (k + 1 + 1) pubkey path st =
      getStaticFileMappingFuel cfg db 2 pubkey path st := by
  rw [getStaticFileMappingFuel, getStaticFileMappingFuel]
  simp only [sfm404_fuel]

/-- Each top-level resolution attempts `path`, and possibly `/404.html`
after it, and nothing else. -/
theorem sfm_attempts (cfg : Config) (db : RelayDB) (pubkey path : String)
    (st : RVState) :
    ((getStaticFileMapping cfg db pubkey path st).2).attempts =
        st.attempts ++ [path] ∨
      ((getStaticFileMapping cfg db pubkey path st).2).attempts =
        st.attempts ++ [path, "/404.html"] := by
  rw [getStaticFileMapping, getStaticFileMappingFuel]
  dsimp only
  split
  · exact Or.inl rfl
  · split
    · exact Or.inl rfl
    · obtain ⟨l, st₁, qs, heq, hpb, hneg₁, hsrv, hatt, hq, hqf, hl1, hl2, hl3⟩ :=
        getRelayList_run cfg db pubkey
          { st with attempts := st.attempts ++ [path] }
      rw [heq]
      dsimp only
      obtain ⟨res1, qs1, heq1, hd1⟩ :=
        queryRelays_run db l (mappingFilter pubkey path) st₁
      rw [heq1]
      dsimp only
      cases res1 with
      | error e => exact Or.inl hatt
      | ok evs =>
        cases evs with
        | cons ev rest =>
          dsimp only
          cases hx : findTagValue ev.tags "x" with
          | none => exact Or.inl hatt
          | some sha256 => exact Or.inl hatt
        | nil =>
          dsimp only
          by_cases hlen : l.length <
              (l ++ List.filter (fun relay => !l.contains relay) cfg.defaultRelays).length
          · rw [if_pos hlen]
            obtain ⟨res2, qs2, heq2, hd2⟩ := queryRelays_run db
              (l ++ List.filter (fun relay => !l.contains relay) cfg.defaultRelays)
              (mappingFilter pubkey path)
              { cache := st₁.cache, queries := st₁.queries ++ qs1,
                attempts := st₁.attempts }
            rw [heq2]
            dsimp only
            cases res2 with
            | error e => exact Or.inl hatt
            | ok evs2 =>
              cases evs2 with
              | cons ev rest =>
                dsimp only
                cases hx : findTagValue ev.tags "x" with
                | none => exact Or.inl hatt
                | some sha256 => exact Or.inl hatt
              | nil =>
                dsimp only
                by_cases hpath : path ≠ "/404.html"
                · rw [if_pos hpath]
                  right
                  rw [sfm404_attempts]
                  simp [hatt]
                · rw [if_neg hpath]
                  exact Or.inl hatt
          · rw [if_neg hlen]
            dsimp only
            by_cases hpath : path ≠ "/404.html"
            · rw [if_pos hpath]
              right
              rw [sfm404_attempts]
              simp [hatt]
            · rw [if_neg hpath]
              exact Or.inl hatt

/-- When the network has no kind-34128 events and `(pubkey, path)` is
neither cached nor negatively cached, a resolution of `path ≠ /404.html`
falls back to `/404.html` exactly once. -/
theorem sfm_noMapping_attempts (cfg : Config) (db : RelayDB)
    (pubkey path : String) (st : RVState)
    (hdb : ∀ rl f, f.kinds = [34128] → db rl f = Except.ok [])
    (hlk : st.cache.pathBlobs.lookup (pubkey ++ path) = none)
    (hneg : st.cache.negative.contains ("mapping:" ++ pubkey ++ ":" ++ path) = false)
    (hpath : path ≠ "/404.html") :
    ((getStaticFileMapping cfg db pubkey path st).2).attempts =
      st.attempts ++ [path, "/404.html"] := by
  rw [getStaticFileMapping, getStaticFileMappingFuel]
  dsimp only
  rw [hlk]
  dsimp only
  rw [if_neg (by simpa using hneg)]
  obtain ⟨l, st₁, qs, heq, hpb, hneg₁, hsrv, hatt, hq, hqf, hl1, hl2, hl3⟩ :=
    getRelayList_run cfg db pubkey { st with attempts := st.attempts ++ [path] }
  rw [heq]
  dsimp only
  obtain ⟨res1, qs1, heq1, hd1⟩ :=
    queryRelays_run db l (mappingFilter pubkey path) st₁
  rw [heq1]
  have hres1 : res1 = Except.ok [] := by
    rcases hd1 with ⟨h, _⟩ | ⟨h, _⟩
    · exact h
    · rw [h]
      exact hdb _ _ rfl
  subst hres1
  dsimp only
  by_cases hlen : l.length <
      (l ++ List.filter (fun relay => !l.contains relay) cfg.defaultRelays).length
  · rw [if_pos hlen]
    obtain ⟨res2, qs2, heq2, hd2⟩ := queryRelays_run db
      (l ++ List.filter (fun relay => !l.contains relay) cfg.defaultRelays)
      (mappingFilter pubkey path)
      { cache := st₁.cache, queries := st₁.queries ++ qs1,
        attempts := st₁.attempts }
    rw [heq2]
    have hres2 : res2 = Except.ok [] := by
      rcases hd2 with ⟨h, _⟩ | ⟨h, _⟩
      · exact h
      · rw [h]
        exact hdb _ _ rfl
    subst hres2
    dsimp only
    rw [if_pos hpath]
    rw [sfm404_attempts]
    simp [hatt]
  · rw [if_neg hlen]
    dsimp only
    rw [if_pos hpath]
    rw [sfm404_attempts]
    simp [hatt]

/-- C6: the `/404.html` fallback is bounded: fuel 2 is already a fixed
point of the fuelled resolver (so the tail-recursion has depth at most
1); every resolution logs `path`, then at most one further attempt,
always `/404.html`; a resolution of `/404.html` itself performs no
fallback; and a resolution that finds no mapping event for a path other
than `/404.html` recurses exactly once, with path `/404.html`. -/
theorem fallback404_bounded (cfg : Config) (db : RelayDB)
    (pubkey path : String) (st : RVState) :
    (∀ k, getStaticFileMappingFuel cfg db (k + 1 + 1) pubkey path st =
      getStaticFileMapping cfg db pubkey path st) ∧
    (((getStaticFileMapping cfg db pubkey path st).2).attempts =
        st.attempts ++ [path] ∨
      ((getStaticFileMapping cfg db pubkey path st).2).attempts =
        st.attempts ++ [path, "/404.html"]) ∧
    (path = "/404.html" →
      ((getStaticFileMapping cfg db pubkey path st).2).attempts =
        st.attempts ++ [path]) ∧
    ((∀ rl f, f.kinds = [34128] → db rl f = Except.ok []) →
      st.cache.pathBlobs.lookup (pubkey ++ path) = none →
      st.cache.negative.contains ("mapping:" ++ pubkey ++ ":" ++ path) = false →
      path ≠ "/404.html" →
      ((getStaticFileMapping cfg db pubkey path st).2).attempts =
        st.attempts ++ [path, "/404.html"]) := by
  refine ⟨fun k => sfm_fuel cfg db pubkey path st k,
    sfm_attempts cfg db pubkey path st, ?_,
    fun hdb hlk hneg hpath => sfm_noMapping_attempts cfg db pubkey path st
      hdb hlk hneg hpath⟩
  intro hpath
  subst hpath
  rw [getStaticFileMapping]
  rw [show (2 : Nat) = 1 + 1 from rfl, sfm404_fuel]
  rw [sfm404_attempts]

/-- Witness for `fallback404_bounded`: with no mapping events at all,
resolving `/nope` from the empty state attempts `/nope` and then
`/404.html`, exactly once each. -/
theorem fallback404_bounded_witness :
    ((getStaticFileMapping { defaultRelays := ["wss://r"], defaultBlossomServers := [] }
        noEventsDB "pk" "/nope" emptyRVState).2).attempts = ["/nope", "/404.html"] :=
  (fallback404_bounded { defaultRelays := ["wss://r"], defaultBlossomServers := [] }
      noEventsDB "pk" "/nope" emptyRVState).2.2.2
    (fun _ _ _ => rfl) rfl rfl (by decide)

/-- A list's self-absent filter is empty. -/
theorem filter_not_contains_self (l : List String) :
    l.filter (fun r => !l.contains r) = [] := by
  rw [List.filter_eq_nil_iff]
  intro a ha
  simp [ha]

/-- Left-cancellation for string append. -/
theorem strAppend_left_cancel {s a b : String} (h : s ++ a = s ++ b) : a = b := by
  apply String.ext
  have hd : s.data ++ a.data = s.data ++ b.data := by
    rw [← String.data_append, ← String.data_append, h]
  exact List.append_cancel_left hd

/-- Reordering a non-empty relay set gives a non-empty active set. -/
theorem sortActiveRelays_isEmpty_false {l : List String} (h : l ≠ []) :
    (sortActiveRelays l).isEmpty = false := by
  cases hsort : sortActiveRelays l with
  | nil => exact absurd ((sortActiveRelays_eq_nil_iff l).mp hsort) h
  | cons x xs => rfl

/-- `getRelayList` on a cache miss over a network with no events: it
issues one relay-list query, caches and returns the defaults. -/
theorem getRelayList_noEvents (cfg : Config) (db : RelayDB) (pubkey : String)
    (st : RVState) (hdb : ∀ rl f, db rl f = Except.ok [])
    (hmiss : st.cache.relays.lookup pubkey = none)
    (hr : cfg.defaultRelays ≠ []) :
    getRelayList cfg db pubkey st =
      (cfg.defaultRelays,
        { st with
          cache := st.cache.setRelaysForPubkey pubkey cfg.defaultRelays,
          queries := st.queries ++
            [(sortActiveRelays cfg.defaultRelays, relayListFilter pubkey)] }) := by
  rw [getRelayList, hmiss]
  dsimp only
  rw [queryRelays, sortActiveRelays_isEmpty_false hr]
  rw [if_neg (by simp)]
  dsimp only
  rw [hdb]

/-- A `/404.html` activation over a no-event network with the relay list
already cached: one mapping query, then a negative mark on the
`/404.html` key. -/
theorem sfm_fuel1_404_noEvents (cfg : Config) (db : RelayDB) (pubkey : String)
    (st : RVState) (hdb : ∀ rl f, db rl f = Except.ok [])
    (hr : cfg.defaultRelays ≠ [])
    (hlk : st.cache.pathBlobs.lookup (pubkey ++ "/404.html") = none)
    (hrel : st.cache.relays.lookup pubkey = some cfg.defaultRelays)
    (hneg : st.cache.negative.contains
      ("mapping:" ++ pubkey ++ ":" ++ "/404.html") = false) :
    getStaticFileMappingFuel cfg db 1 pubkey "/404.html" st =
      (none,
        { st with
          cache := { st.cache with negative :=
            ("mapping:" ++ pubkey ++ ":" ++ "/404.html") :: st.cache.negative },
          queries := st.queries ++
            [(sortActiveRelays cfg.defaultRelays, mappingFilter pubkey "/404.html")],
          attempts := st.attempts ++ ["/404.html"] }) := by
  rw [getStaticFileMappingFuel]
  dsimp only
  rw [hlk]
  dsimp only
  rw [if_neg (by simpa using hneg)]
  rw [getRelayList]
  dsimp only
  rw [hrel]
  dsimp only
  rw [filter_not_contains_self]
  rw [queryRelays, sortActiveRelays_isEmpty_false hr]
  rw [if_neg (by simp)]
  dsimp only
  rw [hdb]
  dsimp only
  rw [List.append_nil]
  rw [if_neg (lt_irrefl _)]
  dsimp only
  rw [if_neg (by simp : ¬("/404.html" : String) ≠ "/404.html")]
  rfl


/-- The first resolution of `q` for a pubkey with no events anywhere:
relay-list query, mapping query for `q`, fallback mapping query for
`/404.html`, then a negative mark on the `/404.html` key only, result
absent. -/
theorem sfm_firstCall_noEvents (cfg : Config) (db : RelayDB) (pubkey q : String)
    (hq : q ≠ "/404.html") (hr : cfg.defaultRelays ≠ [])
    (hdb : ∀ rl f, db rl f = Except.ok []) :
    getStaticFileMapping cfg db pubkey q emptyRVState =
      (none,
        { cache := ⟨[], ["mapping:" ++ pubkey ++ ":" ++ "/404.html"],
            [(pubkey, cfg.defaultRelays)], []⟩,
          queries := [(sortActiveRelays cfg.defaultRelays, relayListFilter pubkey),
            (sortActiveRelays cfg.defaultRelays, mappingFilter pubkey q),
            (sortActiveRelays cfg.defaultRelays, mappingFilter pubkey "/404.html")],
          attempts := [q, "/404.html"] }) := by
  rw [getStaticFileMapping, getStaticFileMappingFuel]
  dsimp only [emptyRVState, emptyCache]
  rw [show List.lookup (pubkey ++ q) ([] : List (String × ParsedEvent)) = none from rfl]
  dsimp only
  rw [if_neg (by simp)]
  rw [getRelayList_noEvents cfg db pubkey ⟨⟨[], [], [], []⟩, [], [] ++ [q]⟩ hdb rfl hr]
  dsimp only [CacheState.setRelaysForPubkey]
  rw [filter_not_contains_self]
  rw [queryRelays, sortActiveRelays_isEmpty_false hr]
  rw [if_neg (by simp)]
  dsimp only
  rw [hdb]
  dsimp only
  rw [List.append_nil]
  rw [if_neg (lt_irrefl _)]
  dsimp only
  rw [if_pos hq]
  rw [sfm_fuel1_404_noEvents cfg db pubkey
    ⟨⟨[], [], [(pubkey, cfg.defaultRelays)], []⟩,
      [] ++ [(sortActiveRelays cfg.defaultRelays, relayListFilter pubkey)] ++
        [(sortActiveRelays cfg.defaultRelays, mappingFilter pubkey q)],
      [] ++ [q]⟩
    hdb hr rfl (by rw [lookup_cons]; simp) rfl]
  simp

/-- A second resolution of the same missing `q`, against the cache the
first one left behind (queries log reset): the `q` key is not negatively
cached, so the resolver still issues the mapping query for `q`; only the
`/404.html` fallback is short-circuited by the negative mark. -/
theorem sfm_secondCall_noEvents (cfg : Config) (db : RelayDB)
    (pubkey q : String) (a : List String)
    (hq : q ≠ "/404.html") (hr : cfg.defaultRelays ≠ [])
    (hdb : ∀ rl f, db rl f = Except.ok []) :
    getStaticFileMapping cfg db pubkey q
      ⟨⟨[], ["mapping:" ++ pubkey ++ ":" ++ "/404.html"],
        [(pubkey, cfg.defaultRelays)], []⟩, [], a⟩ =
      (none,
        ⟨⟨[], ["mapping:" ++ pubkey ++ ":" ++ "/404.html"],
          [(pubkey, cfg.defaultRelays)], []⟩,
          [(sortActiveRelays cfg.defaultRelays, mappingFilter pubkey q)],
          a ++ [q, "/404.html"]⟩) := by
  have hne : ("mapping:" ++ pubkey ++ ":" ++ q) ≠
      ("mapping:" ++ pubkey ++ ":" ++ "/404.html") :=
    fun h => hq (strAppend_left_cancel h)
  rw [getStaticFileMapping, getStaticFileMappingFuel]
  dsimp only
  rw [show List.lookup (pubkey ++ q) ([] : List (String × ParsedEvent)) = none from rfl]
  dsimp only
  rw [if_neg (by simp [hne])]
  rw [getRelayList]
  dsimp only
  rw [lookup_cons]
  rw [if_pos rfl]
  dsimp only
  rw [filter_not_contains_self]
  rw [queryRelays, sortActiveRelays_isEmpty_false hr]
  rw [if_neg (by simp)]
  dsimp only
  rw [hdb]
  dsimp only
  rw [List.append_nil]
  rw [if_neg (lt_irrefl _)]
  dsimp only
  rw [if_pos hq]
  rw [getStaticFileMappingFuel]
  dsimp only
  rw [show List.lookup (pubkey ++ "/404.html") ([] : List (String × ParsedEvent)) = none from rfl]
  dsimp only
  rw [if_pos (by simp)]
  simp

/-- C1: the claim's "second call issues no relay query" is false: the
negative mark of the first call is keyed on the terminal `/404.html`
path, not on the requested `q`, so a second resolution of the same
missing `q` still issues its mapping query (only the fallback hop is
suppressed). -/
theorem negativeCache_secondQuery_counterexample :
    (getStaticFileMapping ⟨["wss://r"], []⟩ noEventsDB "pk" "/nope"
      emptyRVState).1 = none ∧
    ((getStaticFileMapping ⟨["wss://r"], []⟩ noEventsDB "pk" "/nope"
        { (getStaticFileMapping ⟨["wss://r"], []⟩ noEventsDB "pk" "/nope"
            emptyRVState).2 with
          queries := [] }).2).queries ≠ [] := by
  rw [sfm_firstCall_noEvents ⟨["wss://r"], []⟩ noEventsDB "pk" "/nope"
    (by decide) (by decide) (fun _ _ => rfl)]
  dsimp only
  rw [sfm_secondCall_noEvents ⟨["wss://r"], []⟩ noEventsDB "pk" "/nope" _
    (by decide) (by decide) (fun _ _ => rfl)]
  exact ⟨rfl, by simp⟩

/-- C1 (amended): for a pubkey with no events anywhere (so no mapping
for `q` and none for `/404.html`) and a non-empty default relay list,
the first resolution of `q ≠ /404.html` from the empty state returns
absent and negatively caches only the `/404.html` key — not the `q`
key — so a second resolution of `q` within the TTL again returns absent
but still issues exactly one relay query, the kind-34128 mapping query
for `q` itself; only the `/404.html` fallback hop is answered from the
negative cache. -/
theorem negativeCache_fallback_amended (cfg : Config) (db : RelayDB)
    (pubkey q : String) (hq : q ≠ "/404.html")
    (hr : cfg.defaultRelays ≠ [])
    (hdb : ∀ rl f, db rl f = Except.ok []) :
    (getStaticFileMapping cfg db pubkey q emptyRVState).1 = none ∧
    ((getStaticFileMapping cfg db pubkey q emptyRVState).2).cache.negative =
      ["mapping:" ++ pubkey ++ ":" ++ "/404.html"] ∧
    ("mapping:" ++ pubkey ++ ":" ++ q) ∉
      ((getStaticFileMapping cfg db pubkey q emptyRVState).2).cache.negative ∧
    (getStaticFileMapping cfg db pubkey q
        { (getStaticFileMapping cfg db pubkey q emptyRVState).2 with
          queries := [] }).1 = none ∧
    ((getStaticFileMapping cfg db pubkey q
        { (getStaticFileMapping cfg db pubkey q emptyRVState).2 with
          queries := [] }).2).queries =
      [(sortActiveRelays cfg.defaultRelays, mappingFilter pubkey q)] := by
  have hne : ("mapping:" ++ pubkey ++ ":" ++ q) ≠
      ("mapping:" ++ pubkey ++ ":" ++ "/404.html") :=
    fun h => hq (strAppend_left_cancel h)
  rw [sfm_firstCall_noEvents cfg db pubkey q hq hr hdb]
  dsimp only
  rw [sfm_secondCall_noEvents cfg db pubkey q _ hq hr hdb]
  exact ⟨rfl, rfl, by simp [hne], rfl, rfl⟩

/-- Witness for `negativeCache_fallback_amended` at a concrete missing
path: the second resolution's query log is exactly the mapping query for
`/nope`. -/
theorem negativeCache_fallback_amended_witness :
    ("/nope" : String) ≠ "/404.html" ∧
    (["wss://r"] : List String) ≠ [] ∧
    ((getStaticFileMapping ⟨["wss://r"], []⟩ noEventsDB "pk" "/nope"
        { (getStaticFileMapping ⟨["wss://r"], []⟩ noEventsDB "pk" "/nope"
            emptyRVState).2 with
          queries := [] }).2).queries =
      [(sortActiveRelays ["wss://r"], mappingFilter "pk" "/nope")] :=
  ⟨by decide, by decide,
    (negativeCache_fallback_amended ⟨["wss://r"], []⟩ noEventsDB "pk" "/nope"
      (by decide) (by decide) (fun _ _ => rfl)).2.2.2.2⟩
